import Mathlib

set_option maxRecDepth 8000

/-!
Verification development for the SLMSChimp mailing-list automation
(`slmschimp.py`).  The Python source is shallowly embedded: pure helpers
become Lean functions, the stateful reconciliation pass (`Automation.automate`)
becomes an explicit state transformer over an `Except` monad (Python
exceptions become `Except.error`), and the external MailChimp/Discourse
collaborators become explicit state and world parameters.  Calls to
`datetime.now()` in the source are modelled by an explicit `today` parameter.
-/

deriving instance DecidableEq for Except

namespace SLMSChimp

/-! ## Dates: a model of Python `datetime.date` (proleptic Gregorian) -/

/-- A Python `datetime.date` value: year, month, day. -/
structure PyDate where
  year : Nat
  month : Nat
  day : Nat
deriving DecidableEq, Repr

/-- Gregorian leap-year test, as in Python's `calendar`/`datetime`. -/
def isLeap (y : Nat) : Bool :=
  (y % 4 == 0 && y % 100 != 0) || (y % 400 == 0)

/-- Number of days in a month. -/
def daysInMonth (y m : Nat) : Nat :=
  if m == 2 then (if isLeap y then 29 else 28)
  else if m == 4 || m == 6 || m == 9 || m == 11 then 30
  else 31

/-- Days before the first of month `m` in year `y` (month 1 gives 0). -/
def daysBeforeMonth (y m : Nat) : Nat :=
  [0, 0, 31, 59, 90, 120, 151, 181, 212, 243, 273, 304, 334].getD m 0
    + (if 3 ≤ m && isLeap y then 1 else 0)

/-- Python `date.toordinal()`: day 1 is 0001-01-01 in the proleptic
Gregorian calendar. -/
def toOrdinal (d : PyDate) : Nat :=
  365 * (d.year - 1) + (d.year - 1) / 4 - (d.year - 1) / 100 + (d.year - 1) / 400
    + daysBeforeMonth d.year d.month + d.day

/-- Python `date.fromordinal`: inverse of `toOrdinal` on valid dates
(civil-from-days algorithm, shifted to Python's ordinal epoch). -/
def fromOrdinal (n : Nat) : PyDate :=
  let z := n + 305
  let era := z / 146097
  let doe := z % 146097
  let yoe := (doe - doe / 1460 + doe / 36524 - doe / 146097) / 365
  let y := yoe + era * 400
  let doy := doe - (365 * yoe + yoe / 4 - yoe / 100)
  let mp := (5 * doy + 2) / 153
  let dd := doy - (153 * mp + 2) / 5 + 1
  let m := if mp < 10 then mp + 3 else mp - 9
  ⟨if m ≤ 2 then y + 1 else y, m, dd⟩

/-- `(a - b).days` on Python dates (a `timedelta` day count, may be negative). -/
def dateSubDays (a b : PyDate) : Int :=
  (toOrdinal a : Int) - (toOrdinal b : Int)

/-- `d + timedelta(days=k)` on Python dates. -/
def dateAddDays (d : PyDate) (k : Int) : PyDate :=
  fromOrdinal ((toOrdinal d : Int) + k).toNat

/-- Python `date` comparison `a < b` (lexicographic on year, month, day). -/
def dateLtB (a b : PyDate) : Bool :=
  if a.year != b.year then a.year < b.year
  else if a.month != b.month then a.month < b.month
  else a.day < b.day

/-- Python `"%A"` weekday names indexed by `toordinal % 7`
(ordinal 1, 0001-01-01, is a Monday). -/
def weekdayName (k : Nat) : String :=
  [("Sunday"), ("Monday"), ("Tuesday"), ("Wednesday"), ("Thursday"),
   ("Friday"), ("Saturday")].getD k ("")

/-- Python `"%B"` month names (index 1..12). -/
def monthName (m : Nat) : String :=
  [(""), ("January"), ("February"), ("March"), ("April"), ("May"), ("June"),
   ("July"), ("August"), ("September"), ("October"), ("November"),
   ("December")].getD m ("")

/-- Zero-pad a number to two digits, as Python `"%d"` / `"%m"`. -/
def pad2 (n : Nat) : String :=
  if n < 10 then ("0") ++ toString n else toString n

/-- Zero-pad a year to four digits, as in `date.isoformat()`. -/
def pad4 (n : Nat) : String :=
  if n < 10 then ("000") ++ toString n
  else if n < 100 then ("00") ++ toString n
  else if n < 1000 then ("0") ++ toString n
  else toString n

/-- Python `date.isoformat()`: `YYYY-MM-DD`. -/
def isoDate (d : PyDate) : String :=
  pad4 d.year ++ ("-") ++ pad2 d.month ++ ("-") ++ pad2 d.day

/-- Python `date.strftime('%A, %d %B')`, the format used by
`update_campaign_content` and the scheduler's log messages. -/
def strftimeAdB (d : PyDate) : String :=
  weekdayName (toOrdinal d % 7) ++ (", ") ++ pad2 d.day ++ (" ") ++ monthName d.month

/-! ## Scheduler (`HouseKeeping`) -/

/-- The fixed cadence anchor: `datetime(2023, 7, 12).date()` in
`HouseKeeping.days_till_openeve`. -/
def reference_date : PyDate := ⟨2023, 7, 12⟩

/-- `HouseKeeping.days_till_openeve`, with the source's `datetime.now().date()`
made an explicit `today` parameter.  Python `%` on ints is `Int.emod`. -/
def days_till_openeve (today : PyDate) : Int :=
  let days_since_reference := dateSubDays today reference_date
  (14 - days_since_reference % 14) % 14

/-- `HouseKeeping.next_openeve`: `today + timedelta(days=days_till_openeve())`. -/
def next_openeve (today : PyDate) : PyDate :=
  dateAddDays today (days_till_openeve today)

/-- `HouseKeeping.do_we_have_an_event`, with the Discourse calendar lookup
(`Discourse.get_openeve_date_and_url`, an external read) passed in as
`event_info : Option (date, url)` and `datetime.now().date()` as `today`. -/
def do_we_have_an_event (today : PyDate) (event_info : Option (PyDate × String)) : Bool :=
  match event_info with
  | none => false
  | some (event_date, _) =>
    if next_openeve today == event_date then true
    else if dateLtB (next_openeve today) event_date then true
    else false

/-! ## Text patterns

`find_campaign_date_and_url` and `update_campaign_content` use three `re`
patterns.  Each is embedded as a direct matcher on `List Char` with the
backtracking choice points the pattern actually has (the greedy character
classes involved are each followed by a character outside the class, so
maximal munch is exact for them). -/

/-- Maximal run of characters satisfying `p` (and the rest). -/
def munch (p : Char → Bool) : List Char → (List Char × List Char)
  | [] => ([], [])
  | c :: rest =>
    if p c then
      let r := munch p rest
      (c :: r.1, r.2)
    else ([], c :: rest)

/-- Like `munch` but fails when the run is empty (a `+` quantifier). -/
def munch1 (p : Char → Bool) (l : List Char) : Option (List Char × List Char) :=
  match munch p l with
  | ([], _) => none
  | (a, b) => some (a, b)

/-- Consume the characters of a literal, or fail. -/
def dropChars : List Char → List Char → Option (List Char)
  | [], l => some l
  | _ :: _, [] => none
  | c :: cs, x :: xs => if x == c then dropChars cs xs else none

/-- Consume a literal string, or fail. -/
def lit (s : String) (l : List Char) : Option (List Char) :=
  dropChars s.toList l

def isAlphaC (c : Char) : Bool := c.isAlpha
def isDigitC (c : Char) : Bool := c.isDigit
/-- Python `\s` (ASCII): space, tab, newline, carriage return, VT, FF. -/
def isSpaceC (c : Char) : Bool :=
  c == ' ' || c == '\t' || c == '\n' || c == '\r' || c == Char.ofNat 11 || c == Char.ofNat 12
/-- Python `\w` (ASCII subset). -/
def isWordC (c : Char) : Bool := c.isAlpha || c.isDigit || c == '_'

/-- Python `str.strip()`: drop leading and trailing whitespace. -/
def pyStrip (s : String) : String :=
  String.mk (((s.toList.dropWhile isSpaceC).reverse.dropWhile isSpaceC).reverse)

/-- Left-to-right non-overlapping replacement of `old` by `new`
(Python `str.replace` and `re.sub` with a literal pattern).  The fuel is the
input length; it suffices because each replacement consumes at least one
character of a nonempty `old` (the only shape the source produces). -/
def replaceAux (old new : List Char) : Nat → List Char → List Char
  | 0, l => l
  | _, [] => []
  | Nat.succ n, c :: rest =>
    match dropChars old (c :: rest) with
    | some remaining => new ++ replaceAux old new n remaining
    | none => c :: replaceAux old new n rest

/-- Python `str.replace(old, new)` (all occurrences). -/
def pyReplace (s old new : String) : String :=
  String.mk (replaceAux old.toList new.toList s.toList.length s.toList)

/-- Python `str.split("\n")` (keeps empty pieces). -/
def splitNl : List Char → List Char → List (List Char)
  | [], acc => [acc.reverse]
  | c :: rest, acc =>
    if c == '\n' then acc.reverse :: splitNl rest [] else splitNl rest (c :: acc)

/-- Value of a digit string (Python `int` on a `\d{1,2}` capture). -/
def digitsVal (l : List Char) : Nat :=
  l.foldl (fun a c => a * 10 + (c.toNat - 48)) 0

/-- Tail of the first pattern after the day digits:
`(?:st|nd|rd|th)?\s*([A-Za-z]+)`, with backtracking over the optional
ordinal suffix; returns the month-name capture. -/
def p1AfterDigits (l : List Char) : Option (String × List Char) :=
  let rest3 : List Char → Option (String × List Char) := fun l2 =>
    let sp := munch isSpaceC l2
    match munch1 isAlphaC sp.2 with
    | none => none
    | some (g3, l4) => some (String.mk g3, l4)
  ((lit ("st") l).bind rest3) <|> ((lit ("nd") l).bind rest3) <|>
    ((lit ("rd") l).bind rest3) <|> ((lit ("th") l).bind rest3) <|> rest3 l

/-- Body of the first pattern after `is(?: on)? `:
`([A-Za-z]+)(?:,)? (\d{1,2})` followed by `p1AfterDigits`;
returns (weekday, day digits, month name). -/
def p1Core (l : List Char) : Option (String × String × String) :=
  match munch1 isAlphaC l with
  | none => none
  | some (g1, l1) =>
    let l2 := ((lit (",") l1)).getD l1
    match lit (" ") l2 with
    | none => none
    | some l3 =>
      let afterD : List Char → List Char → Option (String × String × String) := fun ds l4 =>
        (p1AfterDigits l4).map (fun r => (String.mk g1, String.mk ds, r.1))
      match l3 with
      | c1 :: c2 :: rest =>
        if isDigitC c1 && isDigitC c2 then
          (afterD [c1, c2] rest) <|> (afterD [c1] (c2 :: rest))
        else if isDigitC c1 then afterD [c1] (c2 :: rest)
        else none
      | [c1] => if isDigitC c1 then afterD [c1] [] else none
      | [] => none

/-- Match the pattern
`is(?: on)? ([A-Za-z]+)(?:,)? (\d{1,2})(?:st|nd|rd|th)?\s*([A-Za-z]+)`
anchored at the current position. -/
def p1At (l : List Char) : Option (String × String × String) :=
  match lit ("is") l with
  | none => none
  | some l1 => ((lit (" on ") l1).bind p1Core) <|> ((lit (" ") l1).bind p1Core)

/-- `re.search` for the first pattern: leftmost match. -/
def searchP1 : List Char → Option (String × String × String)
  | [] => none
  | c :: rest => p1At (c :: rest) <|> searchP1 rest

/-- The fixed calendar-domain path used by the URL pattern. -/
def urlBase : String := "https://discourse.southlondonmakerspace.org/t/"

/-- Match `https:\/\/discourse\.southlondonmakerspace\.org\/t\/[^/]+\/\d+`
anchored at the current position, returning the matched text. -/
def urlAt (l : List Char) : Option String :=
  match lit urlBase l with
  | none => none
  | some l1 =>
    match munch1 (fun c => c != '/') l1 with
    | none => none
    | some (seg, l2) =>
      match lit ("/") l2 with
      | none => none
      | some l3 =>
        match munch1 isDigitC l3 with
        | none => none
        | some (ds, _) => some (urlBase ++ String.mk seg ++ ("/") ++ String.mk ds)

/-- First match of the URL pattern (`re.findall(...)[0]` uses only this). -/
def searchUrl : List Char → Option String
  | [] => none
  | c :: rest => urlAt (c :: rest) <|> searchUrl rest

/-- Match the broader date pattern `\w+, \d{2}(st|nd|rd|th)? \w+` anchored at
the current position, returning the matched text (`match.group()`). -/
def broadAt (l : List Char) : Option String :=
  match munch1 isWordC l with
  | none => none
  | some (g1, l1) =>
    match lit (", ") l1 with
    | none => none
    | some l2 =>
      match l2 with
      | c1 :: c2 :: l3 =>
        if isDigitC c1 && isDigitC c2 then
          let fin : String → List Char → Option String := fun suf l4 =>
            match lit (" ") l4 with
            | none => none
            | some l5 =>
              match munch1 isWordC l5 with
              | none => none
              | some (g2, _) =>
                some (String.mk g1 ++ (", ") ++ String.mk [c1, c2] ++ suf ++ (" ") ++ String.mk g2)
          ((lit ("st") l3).bind (fin ("st"))) <|> ((lit ("nd") l3).bind (fin ("nd"))) <|>
            ((lit ("rd") l3).bind (fin ("rd"))) <|> ((lit ("th") l3).bind (fin ("th"))) <|>
            fin ("") l3
        else none
      | _ => none

/-- `re.search` for the broader date pattern. -/
def searchBroad : List Char → Option String
  | [] => none
  | c :: rest => broadAt (c :: rest) <|> searchBroad rest

/-! ## Campaign content (`find_campaign_date_and_url`, `update_campaign_content`) -/

/-- The campaign content object: a dict with an `html` entry
(`get_campaign_content` requests `fields=html`). -/
structure CampaignContent where
  html : String
deriving DecidableEq, Repr

/-- One character of `json.dumps` escaping. -/
def escapeJsonChar (c : Char) : String :=
  if c == '"' then ("\\\"")
  else if c == '\\' then ("\\\\")
  else if c == '\n' then ("\\n")
  else if c == '\t' then ("\\t")
  else if c == '\r' then ("\\r")
  else String.mk [c]

def escapeJson (s : String) : String :=
  s.toList.foldl (fun acc c => acc ++ escapeJsonChar c) ("")

/-- `json.dumps(campaign_content)` for the single-key content dict. -/
def jsonDumps (c : CampaignContent) : String :=
  ("\x7b\"html\": \"") ++ escapeJson c.html ++ ("\"\x7d")

/-- The `month_dict` of `find_campaign_date_and_url`
(`month_dict[month_name]` raises `KeyError` on a miss). -/
def monthLookup (m : String) : Option Nat :=
  List.lookup m
    [(("January"), 1), (("February"), 2), (("March"), 3), (("April"), 4),
     (("May"), 5), (("June"), 6), (("July"), 7), (("August"), 8),
     (("September"), 9), (("October"), 10), (("November"), 11), (("December"), 12)]

/-- `today.replace(day=..., month=...)` followed by `.date()`: keeps the
current year and validates the day against the month (raising `ValueError`
on an invalid combination). -/
def pyDateReplace (today : PyDate) (mon day : Nat) : Except String PyDate :=
  if 1 ≤ mon && mon ≤ 12 && 1 ≤ day && day ≤ daysInMonth today.year mon then
    .ok ⟨today.year, mon, day⟩
  else .error ("ValueError")

/-- `Automation.find_campaign_date_and_url`.  On a date-pattern match it
builds the date (`month_dict` lookup may raise `KeyError`, `today.replace`
may raise `ValueError`) and then takes `url_match[0]`, which raises
`IndexError` when the URL pattern found nothing.  When the date pattern does
not match at all it logs an error and implicitly returns `None`. -/
def find_campaign_date_and_url (today : PyDate) (c : CampaignContent) :
    Except String (Option (PyDate × String)) :=
  match searchP1 (jsonDumps c).toList with
  | some (_, day_number, month_name) =>
    match monthLookup month_name with
    | none => .error ("KeyError")
    | some month_number =>
      match pyDateReplace today month_number (digitsVal day_number.toList) with
      | .error e => .error e
      | .ok date =>
        match searchUrl (jsonDumps c).toList with
        | none => .error ("IndexError")
        | some url => .ok (some (date, url))
  | none => .ok none

/-- `Automation.update_campaign_content`.  `discourse_date_and_url` is the
value of `Discourse.get_openeve_date_and_url()`; when it is `None` the
source's `list(discourse_date_and_url)` raises `TypeError`.  In the update
branch, `campaign_date_and_url[1]` raises `TypeError` when extraction
returned `None`, and `re.sub(None, ...)` raises `TypeError` when the broad
date pattern found no old date phrase.  The two substitutions are literal
replace-all operations (the matched old date text contains no regex
metacharacters). -/
def update_campaign_content (today : PyDate) (campaign_content : CampaignContent)
    (discourse_date_and_url : Option (PyDate × String)) : Except String CampaignContent :=
  match find_campaign_date_and_url today campaign_content with
  | .error e => .error e
  | .ok campaign_date_and_url =>
    match discourse_date_and_url with
    | none => .error ("TypeError")
    | some ev =>
      if campaign_date_and_url == some ev then .ok campaign_content
      else
        let old_date := searchBroad campaign_content.html.toList
        let discourse_date := strftimeAdB ev.1
        match campaign_date_and_url with
        | none => .error ("TypeError")
        | some cdu =>
          match old_date with
          | none => .error ("TypeError")
          | some od =>
            let updated_content := pyReplace campaign_content.html od discourse_date
            let updated2 := pyReplace updated_content cdu.2 ev.2
            .ok ({ html := updated2 })

/-! ## Members, survey snapshot and the external world

The run operates on a one-run snapshot of survey responses
(`DataProvider.get_survey_responses`) and the live member store reached
through the MailChimp API (`list_tags`, `add_tag`, `subscribe`,
`unsubscribe`, `archive`).  Members are modelled with their live tag set and
live status; the list order is the order of `list_members_info['members']`.
Network transport is assumed up (transport failures are out of the claims'
scope); the modelled MailChimp behaviours are: tags are a set per member,
tag names map to platform tag ids, archiving a contact changes its status
but keeps its tags. -/

/-- A MailChimp member tag: platform id and name. -/
structure Tag where
  id : Nat
  name : String
deriving DecidableEq, Repr

/-- A live list member: contact id, live status, live tag set. -/
structure MemberRec where
  contact_id : String
  status : String
  tags : List Tag
deriving DecidableEq, Repr

/-- One entry of the cached survey-response snapshot, with the dict shapes
`get_field` dereferences: the `contact` sub-dict may be absent, and both
top-level fields may be absent. -/
structure SResponse where
  contact : Option (List (String × String))
  response_id : Option String
  submitted_at : Option String
deriving DecidableEq, Repr

/-- The cached survey snapshot (`survey_responses['responses']`). -/
structure Snapshot where
  responses : List SResponse
deriving DecidableEq, Repr

/-- One item of a single survey result's `results` list. -/
structure SurveyAnswer where
  question_id : String
  answer : String
deriving DecidableEq, Repr

/-- The external collaborators' read-only data for one run:
per-response survey result details (`get_survey_result`), the Discourse
calendar event (`Discourse.get_openeve_date_and_url`), and the content of
the last sent campaign (`get_campaign_content(last_campaign_id())`). -/
structure World where
  surveyResults : String → List SurveyAnswer
  discourseEvent : Option (PyDate × String)
  lastSentContent : String

/-- MailChimp's platform assignment of tag ids to the tag names this program
uses: `slmschimp` is platform tag 10201605 (the id checked by
`has_invite_tag`, see the source comment) and `18+` is platform tag
10181290 (the id checked by `is_18+`).  Other names get fresh ids outside
the two checked ones, modelled as 0. -/
def tagIdOf (name : String) : Nat :=
  if name == ("slmschimp") then 10201605
  else if name == ("18+") then 10181290
  else 0

/-- Python dict `.get` over the modelled `contact` sub-dict. -/
def lookupKV : List (String × String) → String → Option String
  | [], _ => none
  | (k, v) :: rest, key => if k == key then some v else lookupKV rest key

/-- `MailChimpAPI.list_tags(contact_id)['tags']`: the member's live tags;
an unknown contact produces an API error payload without a `tags` key, so
the subscript raises `KeyError`. -/
def list_tags (members : List MemberRec) (cid : String) : Except String (List Tag) :=
  match members.find? (fun m => m.contact_id == cid) with
  | some m => .ok m.tags
  | none => .error ("KeyError")

/-! ## `Automation.get_field` -/

/-- A resolved field value: the strings and booleans `get_field` returns. -/
inductive FieldValue where
  | str : String → FieldValue
  | bool : Bool → FieldValue
deriving DecidableEq, Repr

/-- Python truthiness of a resolved value (`None` and `False` and the empty
string are falsy). -/
def truthy : Option FieldValue → Bool
  | none => false
  | some (.str s) => !(s == "")
  | some (.bool b) => b

def contact_details : List String := [("email"), ("contact_id"), ("status"), ("full_name")]
def survey_responses_fields : List String := [("response_id"), ("submitted_at")]
def survey_result_fields : List String := [("is_18+"), ("discourse_name")]

/-- The `contact_details` loop of `get_field`: every response's `contact`
is dereferenced (raising `AttributeError` when it is absent), a matching
response's requested field is `.strip()`-ed (raising `AttributeError` when
the value is absent), and the loop keeps scanning so the last match wins. -/
def contactLoop (cid field : String) :
    List SResponse → Option FieldValue → Except String (Option FieldValue)
  | [], acc => .ok acc
  | r :: rs, acc =>
    match r.contact with
    | none => .error ("AttributeError")
    | some c =>
      if (lookupKV c ("contact_id")).any (fun v => v == cid) then
        match lookupKV c field with
        | none => .error ("AttributeError")
        | some v => contactLoop cid field rs (some (FieldValue.str (pyStrip v)))
      else contactLoop cid field rs acc

/-- The `survey_responses_fields` loop of `get_field`: a matching response
assigns `response.get(field_name)` (possibly `None`) to the accumulator. -/
def srLoop (cid field : String) :
    List SResponse → Option FieldValue → Except String (Option FieldValue)
  | [], acc => .ok acc
  | r :: rs, acc =>
    match r.contact with
    | none => .error ("AttributeError")
    | some c =>
      if (lookupKV c ("contact_id")).any (fun v => v == cid) then
        srLoop cid field rs
          ((if field == ("response_id") then r.response_id else r.submitted_at).map FieldValue.str)
      else srLoop cid field rs acc

/-- The `survey_result_fields` loop of `get_field`.  `tagsE` is the (pure,
constant) result of the `list_tags` call the loop performs on a match.  For
`is_18+` the fetched survey detail is bound but never read — the value is
taken from the live tag set (id 10181290) alone.  For `discourse_name` the
loop returns early; `survey['results']` raises `TypeError` when the detail
fetch failed (no response id), a missing question 29030 raises
`StopIteration` from `next`, and an empty answer resolves to `None`. -/
def resultLoop (tagsE : Except String (List Tag)) (w : World) (cid field : String) :
    List SResponse → Option FieldValue → Except String (Option FieldValue)
  | [], acc => .ok acc
  | r :: rs, acc =>
    match r.contact with
    | none => .error ("AttributeError")
    | some c =>
      if (lookupKV c ("contact_id")).any (fun v => v == cid) then
        let survey : Option (List SurveyAnswer) := r.response_id.map w.surveyResults
        if field == ("is_18+") then
          match tagsE with
          | .error e => .error e
          | .ok tags =>
            resultLoop tagsE w cid field rs
              (some (FieldValue.bool (tags.any (fun t => t.id == 10181290))))
        else if field == ("discourse_name") then
          match survey with
          | none => .error ("TypeError")
          | some results =>
            match results.find? (fun item => item.question_id == ("29030")) with
            | none => .error ("StopIteration")
            | some item =>
              let query := item.answer
              if query == ("") then .ok none
              else
                .ok (some (FieldValue.str (String.mk
                  ((splitNl (pyReplace (pyStrip query) (" ") ("")).toList []).getLastD []))))
        else resultLoop tagsE w cid field rs acc
      else resultLoop tagsE w cid field rs acc

/-- `Automation.get_field`. -/
def get_field (members : List MemberRec) (snap : Snapshot) (w : World)
    (cid field : String) : Except String (Option FieldValue) :=
  if field ∈ contact_details then contactLoop cid field snap.responses none
  else if field ∈ survey_responses_fields then srLoop cid field snap.responses none
  else if field ∈ survey_result_fields then
    resultLoop (list_tags members cid) w cid field snap.responses none
  else if field == ("has_invite_tag") then
    match list_tags members cid with
    | .error e => .error e
    | .ok tags => .ok (some (FieldValue.bool (tags.any (fun t => t.id == 10201605))))
  else .ok none

/-! ## Run state and API effects -/

/-- Mutable state threaded through a run: the live members, the draft
campaigns that exist (newest first, as `campaign_info('save')` sorts by
create time descending with `count=1`), a fresh-id counter for campaign
creation, the stored per-campaign content, the HTTP status the collaborator
returns for the campaign-send call, and the number of polls for which the
campaign still reports `sending`. -/
structure St where
  members : List MemberRec
  drafts : List String
  nextId : Nat
  contents : List (String × String)
  sendStatus : Nat
  sendingTicks : Nat
deriving DecidableEq, Repr

/-- Update the members holding a contact id (MailChimp member endpoints are
keyed by contact id). -/
def updMember (members : List MemberRec) (cid : String) (f : MemberRec → MemberRec) :
    List MemberRec :=
  members.map (fun m => if m.contact_id == cid then f m else m)

/-- Tag sets have set semantics: adding an already-active tag is a no-op. -/
def addTagL (tags : List Tag) (t : Tag) : List Tag :=
  if t ∈ tags then tags else tags ++ [t]

/-- `MailChimpAPI.add_tag(contact_id, tag)`: add the named tag (by its
platform id) to the member's tag set; an unknown contact is logged and the
run continues. -/
def add_tag (st : St) (cid tag : String) : St :=
  let f := fun (m : MemberRec) => { m with tags := addTagL m.tags (Tag.mk (tagIdOf tag) tag) }
  { st with members := updMember st.members cid f }

/-- Patch a member's status (`subscribe` / `unsubscribe` / `archive` are
status writes; failures are logged and the run continues). -/
def setStatus (st : St) (cid status : String) : St :=
  { st with members := updMember st.members cid (fun m => { m with status := status }) }

/-- `MailChimpAPI.unsubscribe`: status becomes `unsubscribed`. -/
def unsubscribe (st : St) (cid : String) : St := setStatus st cid ("unsubscribed")

/-- `MailChimpAPI.subscribe`: status becomes `subscribed`. -/
def subscribe (st : St) (cid : String) : St := setStatus st cid ("subscribed")

/-- `MailChimpAPI.archive` (DELETE on the member): the contact becomes
archived; its tags are retained by the platform. -/
def archive (st : St) (cid : String) : St := setStatus st cid ("archived")

/-- `MailChimpAPI.draft_campaign_id`: id of the newest draft, or `None`
(the `IndexError` branch) when no draft exists. -/
def draft_campaign_id (st : St) : Option String := st.drafts.head?

/-- `MailChimpAPI.create_campaign`: creates a new draft campaign (it is
created in MailChimp's `save` status) with a fresh id. -/
def create_campaign (st : St) : St :=
  { st with drafts := (("c") ++ toString st.nextId) :: st.drafts, nextId := st.nextId + 1 }

/-- `MailChimpAPI.set_campaign_content(campaign_id, content)`: store the
content under the campaign id; with no campaign id the call fails with a
logged error and the run continues. -/
def set_campaign_content (st : St) (cid? : Option String) (content : CampaignContent) : St :=
  match cid? with
  | none => st
  | some d =>
    { st with contents := (d, content.html) :: st.contents.filter (fun p => !(p.1 == d)) }

/-- `MailChimpAPI.send_campaign(campaign_id)`: only attempted when a draft
exists (`if self.draft_campaign_id():`).  A 204 response succeeds; a 400
response raises `SystemExit` (halting the whole script — it is not an
`Exception`, so `automate`'s `except Exception` does not catch it); any
other response status is logged and the call returns normally. -/
def send_campaign (st : St) : Except (String × St) St :=
  match draft_campaign_id st with
  | some _ =>
    if st.sendStatus == 204 then .ok st
    else if st.sendStatus == 400 then .error (("SystemExit"), st)
    else .ok st
  | none => .ok st

/-- The `while self.api.check_sending(): time.sleep(5)` polling loop: the
campaign reports `sending` for finitely many polls; the loop has no other
effect on the modelled state. -/
def waitSendingLoop : Nat → Unit
  | 0 => ()
  | Nat.succ n => waitSendingLoop n

/-! ## The reconciliation pass (`Automation.automate`) -/

/-- The resubscribe-refresh of one iteration: a member whose resolved
snapshot status is not `Subscribed` is forced through an
unsubscribe/subscribe pair (with a settle delay); the email arguments of
the two calls are evaluated `get_field` calls. -/
def resubRefresh (w : World) (snap : Snapshot) (st : St) (contact_id : String)
    (sv : Option FieldValue) : Except (String × St) St :=
  if sv == some (FieldValue.str ("Subscribed")) then pure st
  else do
    let _ ← (get_field st.members snap w contact_id ("email")).mapError (fun e => (e, st))
    let sta := unsubscribe st contact_id
    let _ ← (get_field sta.members snap w contact_id ("email")).mapError (fun e => (e, sta))
    pure (subscribe sta contact_id)

/-- One iteration of the first (eligibility) loop of `automate` for member
index `i`: resubscribe-refresh, then the tag branch, with each `elif`
re-evaluating its condition as the source does.  Python exceptions abort
the run and are carried as `Except.error` with the state at the raise. -/
def eligStep (w : World) (snap : Snapshot) (iso_date : String) (st : St) (i : Nat) :
    Except (String × St) St :=
  match (st.members.get? i).map (fun m => m.contact_id) with
  | none => .ok st
  | some contact_id => do
    let sv ← (get_field st.members snap w contact_id ("status")).mapError (fun e => (e, st))
    let st1 ← resubRefresh w snap st contact_id sv
    let hv ← (get_field st1.members snap w contact_id ("has_invite_tag")).mapError (fun e => (e, st1))
    if !(truthy hv) then do
      let a ← (get_field st1.members snap w contact_id ("is_18+")).mapError (fun e => (e, st1))
      if truthy a then
        pure (add_tag (add_tag st1 contact_id (("Invited-") ++ iso_date)) contact_id ("slmschimp"))
      else do
        let a2 ← (get_field st1.members snap w contact_id ("is_18+")).mapError (fun e => (e, st1))
        if !(truthy a2) then do
          let st2 := add_tag st1 contact_id ("NoSend")
          let _ ← (get_field st2.members snap w contact_id ("email")).mapError (fun e => (e, st2))
          pure (unsubscribe st2 contact_id)
        else pure st1
    else do
      let hv2 ← (get_field st1.members snap w contact_id ("has_invite_tag")).mapError (fun e => (e, st1))
      if truthy hv2 then
        pure (add_tag (add_tag st1 contact_id (("Invited-") ++ iso_date)) contact_id ("slmschimp"))
      else pure st1

/-- The first loop of `automate` over a list of member indices. -/
def eligLoop (w : World) (snap : Snapshot) (iso_date : String) :
    St → List Nat → Except (String × St) St
  | st, [] => .ok st
  | st, i :: rest => do
    let st2 ← eligStep w snap iso_date st i
    eligLoop w snap iso_date st2 rest

/-- The draft-campaign section of `automate` (lines 706-716): both branches
of `if self.api.draft_campaign_id() is None` call `create_campaign()` and
then fetch the last sent campaign's content, synchronize it against the
Discourse event, and upload it to the (newest) draft. -/
def campaignPhase (w : World) (today : PyDate) (st : St) : Except (String × St) St :=
  match draft_campaign_id st with
  | none =>
    let st1 := create_campaign st
    match update_campaign_content today ({ html := w.lastSentContent }) w.discourseEvent with
    | .error e => .error (e, st1)
    | .ok updated => .ok (set_campaign_content st1 (draft_campaign_id st1) updated)
  | some _ =>
    let st1 := create_campaign st
    match update_campaign_content today ({ html := w.lastSentContent }) w.discourseEvent with
    | .error e => .error (e, st1)
    | .ok updated => .ok (set_campaign_content st1 (draft_campaign_id st1) updated)

/-- One iteration of the second (archiving) loop of `automate`: a member
currently carrying the invite tag is appended to `processed_ids` and
archived; otherwise a member resolving not-18+ is logged (the log line
evaluates `get_field(..., 'email')`). -/
def archiveStep (w : World) (snap : Snapshot) (st : St) (i : Nat) (acc : List String) :
    Except (String × St) (List String × St) :=
  match (st.members.get? i).map (fun m => m.contact_id) with
  | none => .ok (acc, st)
  | some contact_id => do
    let hv ← (get_field st.members snap w contact_id ("has_invite_tag")).mapError (fun e => (e, st))
    if truthy hv then
      .ok (acc ++ [contact_id], archive st contact_id)
    else do
      let a ← (get_field st.members snap w contact_id ("is_18+")).mapError (fun e => (e, st))
      if !(truthy a) then do
        let _ ← (get_field st.members snap w contact_id ("email")).mapError (fun e => (e, st))
        .ok (acc, st)
      else .ok (acc, st)

/-- The second loop of `automate` over a list of member indices. -/
def archiveLoop (w : World) (snap : Snapshot) :
    List Nat → St → List String → Except (String × St) (List String × St)
  | [], st, acc => .ok (acc, st)
  | i :: rest, st, acc => do
    let r ← archiveStep w snap st i acc
    archiveLoop w snap rest r.2 r.1

/-- `Automation.automate`, with `datetime.now().date()` as `today`.  The
member count is `total_items` (zero means nothing to do and an empty result);
the snapshot member list backs both the index lookups and the live member
state, so the count is its length.  Returns `processed_ids` with the final
state, or the exception that aborted the run with the state at that point. -/
def automate (w : World) (snap : Snapshot) (today : PyDate) (st0 : St) :
    Except (String × St) (List String × St) :=
  let iso_date := isoDate today
  let num_surveys := st0.members.length
  if num_surveys == 0 then .ok ([], st0)
  else do
    let st1 ← eligLoop w snap iso_date st0 (List.range num_surveys)
    let st2 ← campaignPhase w today st1
    let st3 ← send_campaign st2
    let _ := waitSendingLoop st3.sendingTicks
    archiveLoop w snap (List.range num_surveys).reverse st3 []

/-! ## Concrete run data used by witnesses and counterexamples -/

/-- An event-thread URL under the calendar domain. -/
def url9 : String := "https://discourse.southlondonmakerspace.org/t/oe/9"

/-- Content of the last sent campaign, whose extracted date and URL match
the authoritative event of `wRun`. -/
def goodHtml : String :=
  "Next open evening is on Wednesday, 9th August. Sign up: https://discourse.southlondonmakerspace.org/t/oe/9 see you!"

/-- A snapshot response with a fully populated contact dict. -/
def mkResp (cid em stx fn rid : String) : SResponse :=
  { contact := some [(("contact_id"), cid), (("email"), em), (("status"), stx), (("full_name"), fn)],
    response_id := some rid, submitted_at := some ("t") }

/-- Snapshot for the three-member run: a (adult), b (not adult), c (already
invited). -/
def snapRun : Snapshot :=
  { responses := [mkResp ("a") ("a@x") ("Subscribed") ("Ann A") ("ra"),
                  mkResp ("b") ("b@x") ("Unsubscribed") ("Bob B") ("rb"),
                  mkResp ("c") ("c@x") ("Subscribed") ("Cee C") ("rc")] }

/-- World for the concrete runs: every survey detail carries the handle
answer, the Discourse event matches `goodHtml`, and the last sent campaign
content is `goodHtml`. -/
def wRun : World :=
  { surveyResults := fun _ => [⟨("29030"), ("handle")⟩],
    discourseEvent := some (⟨2023, 8, 9⟩, url9),
    lastSentContent := goodHtml }

def memA : MemberRec :=
  { contact_id := ("a"), status := ("subscribed"), tags := [Tag.mk 10181290 ("18+")] }
def memB : MemberRec := { contact_id := ("b"), status := ("unsubscribed"), tags := [] }
def memC : MemberRec :=
  { contact_id := ("c"), status := ("subscribed"),
    tags := [Tag.mk 10201605 ("slmschimp"), Tag.mk 10181290 ("18+")] }

/-- Initial state of the three-member run (send succeeds with 204). -/
def stRun : St :=
  { members := [memA, memB, memC], drafts := [], nextId := 0, contents := [],
    sendStatus := 204, sendingTicks := 2 }

def todayRun : PyDate := ⟨2023, 8, 1⟩

/-! ## C7: scheduler arithmetic -/

/-- C7: `days_till_openeve` computes `((14 − ((today − reference).days mod
14)) mod 14)` for the fixed reference date 2023-07-12, `next_openeve` adds
that many days to today, and the three concrete facts
`days_until_next(reference) = 0`, `days_until_next(reference+13) = 1`,
`next_event(reference+1) = reference+14` hold. -/
theorem c7_scheduler_formula :
    (∀ today : PyDate,
        days_till_openeve today = (14 - (dateSubDays today reference_date) % 14) % 14 ∧
        next_openeve today = dateAddDays today (days_till_openeve today)) ∧
    days_till_openeve reference_date = 0 ∧
    days_till_openeve (dateAddDays reference_date 13) = 1 ∧
    next_openeve (dateAddDays reference_date 1) = dateAddDays reference_date 14 :=
  ⟨fun _ => ⟨rfl, rfl⟩, by decide, by decide, by decide⟩

/-! ## C8: event validation -/

/-- `dateLtB` in propositional form (Python's lexicographic date order). -/
theorem dateLtB_iff (a b : PyDate) :
    dateLtB a b = true ↔
      (a.year < b.year ∨ (a.year = b.year ∧
        (a.month < b.month ∨ (a.month = b.month ∧ a.day < b.day)))) := by
  rcases a with ⟨y1, m1, d1⟩
  rcases b with ⟨y2, m2, d2⟩
  simp only [dateLtB]
  by_cases h1 : y1 = y2
  · subst h1
    simp only [bne_self_eq_false, Bool.false_eq_true, if_false]
    by_cases h2 : m1 = m2
    · subst h2
      simp only [bne_self_eq_false, Bool.false_eq_true, if_false, decide_eq_true_eq]
      simp [lt_self_iff_false]
    · have hb : (m1 != m2) = true := by simp [bne_iff_ne, h2]
      simp only [hb, if_true, decide_eq_true_eq]
      simp [h2, lt_self_iff_false]
  · have hb : (y1 != y2) = true := by simp [bne_iff_ne, h1]
    simp only [hb, if_true, decide_eq_true_eq]
    simp [h1]

/-- C8: `do_we_have_an_event` is false with no reported event, true when the
reported date equals the computed next event, true when it is strictly
later, and false when it strictly precedes it. -/
theorem c8_do_we_have_an_event (today : PyDate) :
    do_we_have_an_event today none = false ∧
    ∀ (d : PyDate) (u : String),
      (d = next_openeve today → do_we_have_an_event today (some (d, u)) = true) ∧
      (dateLtB (next_openeve today) d = true →
        do_we_have_an_event today (some (d, u)) = true) ∧
      (dateLtB d (next_openeve today) = true →
        do_we_have_an_event today (some (d, u)) = false) := by
  refine ⟨rfl, fun d u => ⟨?_, ?_, ?_⟩⟩
  · intro h
    subst h
    simp [do_we_have_an_event]
  · intro h
    by_cases he : next_openeve today == d <;> simp [do_we_have_an_event, he, h]
  · intro h
    have hne : (next_openeve today == d) = false := by
      rw [beq_eq_false_iff_ne]
      intro he
      rw [dateLtB_iff] at h
      rw [he] at h
      omega
    have hgt : dateLtB (next_openeve today) d = false := by
      rw [Bool.eq_false_iff]
      intro hg
      rw [dateLtB_iff] at h hg
      omega
    simp [do_we_have_an_event, hne, hgt]

/-- C8 witness: the four branches at concrete inputs
(today 2023-07-13, computed next event 2023-07-26). -/
theorem c8_do_we_have_an_event_witness :
    do_we_have_an_event ⟨2023, 7, 13⟩ none = false ∧
    do_we_have_an_event ⟨2023, 7, 13⟩ (some (⟨2023, 7, 26⟩, ("u"))) = true ∧
    do_we_have_an_event ⟨2023, 7, 13⟩ (some (⟨2023, 8, 9⟩, ("u"))) = true ∧
    do_we_have_an_event ⟨2023, 7, 13⟩ (some (⟨2023, 7, 20⟩, ("u"))) = false :=
  ⟨(c8_do_we_have_an_event ⟨2023, 7, 13⟩).1,
   ((c8_do_we_have_an_event ⟨2023, 7, 13⟩).2 ⟨2023, 7, 26⟩ ("u")).1 (by decide),
   ((c8_do_we_have_an_event ⟨2023, 7, 13⟩).2 ⟨2023, 8, 9⟩ ("u")).2.1 (by decide),
   ((c8_do_we_have_an_event ⟨2023, 7, 13⟩).2 ⟨2023, 7, 20⟩ ("u")).2.2 (by decide)⟩

/-! ## C2: the ensure-draft step -/

/-- A state in which exactly one draft campaign already exists. -/
def stDraftIn : St :=
  { members := [], drafts := [("c0")], nextId := 1, contents := [],
    sendStatus := 204, sendingTicks := 0 }

/-- Result state of the ensure-draft step started with a draft present. -/
def stDraftOut : St :=
  match campaignPhase wRun todayRun stDraftIn with
  | .ok s => s
  | .error e => e.2

/-- C2: evaluating the ensure-draft section (lines 706-716) on a state that
already holds one draft campaign: the run creates a second one, because the
`else` branch of `if self.api.draft_campaign_id() is None` also calls
`create_campaign()`.  Two drafts then exist at once. -/
theorem c2_second_draft_created :
    stDraftIn.drafts.length = 1 ∧
    campaignPhase wRun todayRun stDraftIn = .ok stDraftOut ∧
    stDraftOut.drafts.length = 2 :=
  ⟨rfl, by decide, by decide⟩

/-! ## C10: synchronize is a no-op on agreement -/

/-- C10: when extraction of the campaign content yields exactly the
authoritative event (date and URL both match), `update_campaign_content`
returns the content unchanged. -/
theorem c10_synchronize_noop (today : PyDate) (c : CampaignContent)
    (ev : PyDate × String)
    (h : find_campaign_date_and_url today c = .ok (some ev)) :
    update_campaign_content today c (some ev) = .ok c := by
  unfold update_campaign_content
  rw [h]
  simp

/-- C10 witness: the concrete content `goodHtml` extracts to the event
(2023-08-09, url9) and synchronizing against that event returns it
unchanged. -/
theorem c10_synchronize_noop_witness :
    find_campaign_date_and_url todayRun ({ html := goodHtml }) =
      .ok (some (⟨2023, 8, 9⟩, url9)) ∧
    update_campaign_content todayRun ({ html := goodHtml })
      (some (⟨2023, 8, 9⟩, url9)) = .ok ({ html := goodHtml }) :=
  ⟨by decide, c10_synchronize_noop todayRun ({ html := goodHtml }) (⟨2023, 8, 9⟩, url9) (by decide)⟩

/-! ## C6: extraction failures raise instead of skipping -/

/-- Content whose date phrase matches but which contains no calendar URL. -/
def cNoUrl : CampaignContent :=
  { html := "Next open evening is on Wednesday, 9th August. See the forum." }

/-- Content extractable by the first pattern (single-digit day) whose date
phrase is not matched by the broader `\w+, \d{2}...` pattern. -/
def cOneDigit : CampaignContent :=
  { html := "It is on Wednesday, 9 August. https://discourse.southlondonmakerspace.org/t/oe/9" }

/-- C6 counterexample: on content where the URL pattern cannot be located,
extraction raises `IndexError` (`url_match[0]` on an empty `findall`) and
`update_campaign_content` propagates it, aborting the run — it is not
logged-and-skipped for that sub-field. -/
theorem c6_counterexample :
    find_campaign_date_and_url todayRun cNoUrl = .error ("IndexError") ∧
    update_campaign_content todayRun cNoUrl (some (⟨2023, 8, 9⟩, ("u"))) =
      .error ("IndexError") :=
  ⟨by decide, by decide⟩

/-- C6 as amended: a located date phrase with no locatable URL makes
`find_campaign_date_and_url` raise `IndexError`; and when extraction
succeeded but disagrees with the authoritative event and the broader old
date pattern cannot be located verbatim, `update_campaign_content` raises
`TypeError` (from `campaign_date_and_url[1]` on `None`, or `re.sub` with a
`None` pattern) — the date substitution is not a silent no-op and the URL
substitution does not proceed. -/
theorem c6_extraction_failures_raise :
    (∀ (today : PyDate) (c : CampaignContent) (g1 g2 g3 : String) (mn : Nat) (d : PyDate),
        searchP1 (jsonDumps c).toList = some (g1, g2, g3) →
        monthLookup g3 = some mn →
        pyDateReplace today mn (digitsVal g2.toList) = .ok d →
        searchUrl (jsonDumps c).toList = none →
        find_campaign_date_and_url today c = .error ("IndexError")) ∧
    (∀ (today : PyDate) (c : CampaignContent) (ev : PyDate × String)
        (r : Option (PyDate × String)),
        find_campaign_date_and_url today c = .ok r →
        r ≠ some ev →
        searchBroad c.html.toList = none →
        update_campaign_content today c (some ev) = .error ("TypeError")) := by
  constructor
  · intro today c g1 g2 g3 mn d h1 h2 h3 h4
    simp only [find_campaign_date_and_url, h1, h2, h3, h4]
  · intro today c ev r hfind hne hbroad
    have hbe : (r == some ev) = false := beq_eq_false_iff_ne.mpr hne
    simp only [update_campaign_content, hfind, hbe, Bool.false_eq_true, if_false, hbroad]
    cases r <;> rfl

/-- C6 witness: both amended branches at concrete content (no URL present;
and a single-digit date phrase invisible to the broader pattern). -/
theorem c6_extraction_failures_raise_witness :
    find_campaign_date_and_url todayRun cNoUrl = .error ("IndexError") ∧
    update_campaign_content todayRun cOneDigit
      (some (⟨2023, 8, 23⟩, ("u2"))) = .error ("TypeError") :=
  ⟨c6_extraction_failures_raise.1 todayRun cNoUrl ("Wednesday") ("9") ("August") 8
      ⟨2023, 8, 9⟩ (by decide) (by decide) (by decide) (by decide),
   c6_extraction_failures_raise.2 todayRun cOneDigit (⟨2023, 8, 23⟩, ("u2"))
      (some (⟨2023, 8, 9⟩, url9)) (by decide) (by decide) (by decide)⟩

/-! ## C5: totality of `get_field` -/

/-- A cached response whose contact dict matches but carries no `email`. -/
def snapBad : Snapshot :=
  { responses := [{ contact := some [(("contact_id"), ("x"))],
                    response_id := none, submitted_at := none }] }

/-- C5 counterexample: on a cached snapshot whose matching contact record
lacks the requested field, `get_field` raises (`None.strip()` is an
`AttributeError`) instead of resolving to the `None` sentinel. -/
theorem c5_counterexample :
    get_field [] snapBad wRun ("x") ("email") = .error ("AttributeError") := by
  decide

/-- C5 as amended: an unknown field name resolves to the explicit `None`
sentinel without touching any data and never raises; but resolution is not
total in the cached data's shape (see the counterexample). -/
theorem c5_unknown_field_resolves_none (members : List MemberRec) (snap : Snapshot)
    (w : World) (cid field : String)
    (h1 : field ∉ contact_details) (h2 : field ∉ survey_responses_fields)
    (h3 : field ∉ survey_result_fields) (h4 : field ≠ ("has_invite_tag")) :
    get_field members snap w cid field = .ok none := by
  have h4b : (field == ("has_invite_tag")) = false := beq_eq_false_iff_ne.mpr h4
  simp only [get_field, h1, h2, h3, h4b, Bool.false_eq_true, if_false]

/-- C5 witness: an unknown field at concrete data resolves to `None`. -/
theorem c5_unknown_field_resolves_none_witness :
    get_field [] snapBad wRun ("x") ("shoe_size") = .ok none :=
  c5_unknown_field_resolves_none [] snapBad wRun ("x") ("shoe_size")
    (by decide) (by decide) (by decide) (by decide)

/-! ## C4: `is_18+` resolution -/

/-- Whether a snapshot response's contact dict matches a contact id. -/
def matchesContact (cid : String) (r : SResponse) : Bool :=
  match r.contact with
  | none => false
  | some c => (lookupKV c (("contact_id"))).any (fun v => v == cid)

/-- World whose survey-response detail contains an affirmative structured
age answer. -/
def wYes : World :=
  { surveyResults := fun _ => [⟨("age_check"), ("Yes, I am 18 or older")⟩],
    discourseEvent := none, lastSentContent := ("") }

/-- Same world but with a negative structured age answer. -/
def wNo : World :=
  { surveyResults := fun _ => [⟨("age_check"), ("No")⟩],
    discourseEvent := none, lastSentContent := ("") }

/-- A member with no platform `18+` tag. -/
def memX : MemberRec := { contact_id := ("x"), status := ("subscribed"), tags := [] }

/-- Snapshot with one matching response carrying a response id (so the
per-response detail is fetchable). -/
def snapX1 : Snapshot :=
  { responses := [mkResp ("x") ("x@x") ("Subscribed") ("Xe X") ("rx")] }

/-- C4 counterexample: the individual survey response's detail is available
and affirmative, yet `is_18+` resolves `false` because only the platform
`18+` tag (absent here) is consulted — and the result is identical when the
structured answer instead says no.  The survey answer is never used, so
there is no answer-first resolution with a tag fallback. -/
theorem c4_counterexample :
    get_field [memX] snapX1 wYes ("x") ("is_18+") = .ok (some (FieldValue.bool false)) ∧
    get_field [memX] snapX1 wNo ("x") ("is_18+") = .ok (some (FieldValue.bool false)) :=
  ⟨by decide, by decide⟩

/-- `resultLoop` on `is_18+` ignores the world (the fetched survey detail is
bound but never read). -/
theorem resultLoop_is18_world (tagsE : Except String (List Tag)) (w1 w2 : World)
    (cid : String) :
    ∀ (rs : List SResponse) (acc : Option FieldValue),
      resultLoop tagsE w1 cid ("is_18+") rs acc = resultLoop tagsE w2 cid ("is_18+") rs acc := by
  intro rs
  induction rs with
  | nil => intro acc; rfl
  | cons r rest ih =>
    intro acc
    simp only [resultLoop]
    cases hc : r.contact
    · rfl
    · simp only []
      split
      · cases tagsE
        · rfl
        · exact ih _
      · exact ih acc

/-- Once the accumulator holds the tag-derived value, the rest of the
`is_18+` loop keeps it (matching responses overwrite it with the same
value). -/
theorem resultLoop_is18_keep (tags : List Tag) (w : World) (cid : String) :
    ∀ rs : List SResponse, (∀ r ∈ rs, r.contact ≠ none) →
      resultLoop (.ok tags) w cid ("is_18+") rs
          (some (FieldValue.bool (tags.any (fun t => t.id == 10181290)))) =
        .ok (some (FieldValue.bool (tags.any (fun t => t.id == 10181290)))) := by
  intro rs
  induction rs with
  | nil => intro _; rfl
  | cons r rest ih =>
    intro h
    simp only [resultLoop]
    cases hc : r.contact
    · exact absurd hc (h r (List.mem_cons_self r rest))
    · simp only []
      split
      · exact ih (fun x hx => h x (List.mem_cons_of_mem r hx))
      · exact ih (fun x hx => h x (List.mem_cons_of_mem r hx))

/-- C4 as amended: `is_18+` resolution is independent of the fetched survey
detail (the world), and whenever some cached response matches the contact,
it resolves to exactly the platform-tag check `any (id == 10181290)` on the
member's live tags. -/
theorem c4_is18_resolves_by_tag_only :
    (∀ (members : List MemberRec) (snap : Snapshot) (w1 w2 : World) (cid : String),
        get_field members snap w1 cid ("is_18+") = get_field members snap w2 cid ("is_18+")) ∧
    (∀ (members : List MemberRec) (snap : Snapshot) (w : World) (cid : String)
        (tags : List Tag),
        list_tags members cid = .ok tags →
        (∀ r ∈ snap.responses, r.contact ≠ none) →
        snap.responses.any (matchesContact cid) = true →
        get_field members snap w cid ("is_18+") =
          .ok (some (FieldValue.bool (tags.any (fun t => t.id == 10181290))))) := by
  constructor
  · intro members snap w1 w2 cid
    simp only [get_field]
    exact congrArg _ (resultLoop_is18_world (list_tags members cid) w1 w2 cid snap.responses none)
  · intro members snap w cid tags htags hcontacts hmatch
    simp only [get_field]
    rw [htags]
    have main : ∀ (rs : List SResponse) (acc : Option FieldValue),
        (∀ r ∈ rs, r.contact ≠ none) → rs.any (matchesContact cid) = true →
        resultLoop (.ok tags) w cid ("is_18+") rs acc =
          .ok (some (FieldValue.bool (tags.any (fun t => t.id == 10181290)))) := by
      intro rs
      induction rs with
      | nil => intro acc _ hany; simp [List.any] at hany
      | cons r rest ih =>
        intro acc h hany
        simp only [resultLoop]
        cases hc : r.contact with
        | none => exact absurd hc (h r (List.mem_cons_self r rest))
        | some c =>
          simp only []
          split
          · exact resultLoop_is18_keep tags w cid rest
              (fun x hx => h x (List.mem_cons_of_mem r hx))
          · next hcond =>
            have hany2 : rest.any (matchesContact cid) = true := by
              simp only [List.any_cons, Bool.or_eq_true] at hany
              rcases hany with hm | hm
              · exfalso
                apply hcond
                simpa [matchesContact, hc] using hm
              · exact hm
            exact ih acc (fun x hx => h x (List.mem_cons_of_mem r hx)) hany2
    exact main snap.responses none hcontacts hmatch

/-- C4 witness: the amended behaviour at concrete data — resolution ignores
the survey detail and returns the platform-tag check. -/
theorem c4_is18_resolves_by_tag_only_witness :
    get_field [memX] snapX1 wYes ("x") ("is_18+") = get_field [memX] snapX1 wNo ("x") ("is_18+") ∧
    get_field [memX] snapX1 wYes ("x") ("is_18+") =
      .ok (some (FieldValue.bool (List.any ([] : List Tag) (fun t => t.id == 10181290)))) :=
  ⟨c4_is18_resolves_by_tag_only.1 [memX] snapX1 wYes wNo ("x"),
   c4_is18_resolves_by_tag_only.2 [memX] snapX1 wYes ("x") []
     (by decide) (by decide) (by decide)⟩

/-! ## C3: campaign-send failure semantics -/

/-- The three-member run with the send call answered 500. -/
def stRun500 : St := { stRun with sendStatus := 500 }

/-- The three-member run with the send call answered 400. -/
def stRun400 : St := { stRun with sendStatus := 400 }

/-- A state holding a draft, with the send call answered 400. -/
def stDraft400 : St := { stDraftIn with sendStatus := 400 }

def c3run : Except (String × St) (List String × St) := automate wRun snapRun todayRun stRun500

def c3ids : List String :=
  match c3run with
  | .ok r => r.1
  | .error _ => []

def c3st : St :=
  match c3run with
  | .ok r => r.2
  | .error e => e.2

/-- C3 counterexample: with the campaign-send call answered by the
non-success status 500, the run does not abort — it proceeds to the second
member pass, archives and returns both invite-tagged members. -/
theorem c3_counterexample :
    stRun500.sendStatus = 500 ∧
    automate wRun snapRun todayRun stRun500 = .ok (c3ids, c3st) ∧
    c3ids = [("c"), ("a")] :=
  ⟨rfl, by decide, by decide⟩

/-- State after the eligibility loop of the 400-status run. -/
def c3st1 : St :=
  match eligLoop wRun snapRun (isoDate todayRun) stRun400
      (List.range stRun400.members.length) with
  | .ok s => s
  | .error e => e.2

/-- State after the draft-campaign section of the 400-status run. -/
def c3st2 : St :=
  match campaignPhase wRun todayRun c3st1 with
  | .ok s => s
  | .error e => e.2

/-- C3 as amended: only an explicit 400 rejection of the campaign-send
aborts the run (as `SystemExit`); every other response status returns
normally and the run continues; and when the abort fires, `automate` stops
with exactly the state produced by the eligibility and draft phases — no
tags or subscription changes are rolled back. -/
theorem c3_only_400_send_aborts :
    (∀ st : St, (draft_campaign_id st).isSome = true → st.sendStatus = 400 →
        send_campaign st = .error (("SystemExit"), st)) ∧
    (∀ st : St, st.sendStatus ≠ 400 → send_campaign st = .ok st) ∧
    (∀ (w : World) (snap : Snapshot) (today : PyDate) (st0 st1 st2 : St),
        st0.members.length ≠ 0 →
        eligLoop w snap (isoDate today) st0 (List.range st0.members.length) = .ok st1 →
        campaignPhase w today st1 = .ok st2 →
        (draft_campaign_id st2).isSome = true →
        st2.sendStatus = 400 →
        automate w snap today st0 = .error (("SystemExit"), st2)) := by
  refine ⟨?_, ?_, ?_⟩
  · intro st hdraft hstatus
    obtain ⟨d, hd⟩ := Option.isSome_iff_exists.mp hdraft
    simp [send_campaign, hd, hstatus]
  · intro st hstatus
    simp only [send_campaign]
    cases hd : draft_campaign_id st
    · rfl
    · by_cases h204 : st.sendStatus == 204
      · simp [h204]
      · have h400 : (st.sendStatus == 400) = false := by
          rw [beq_eq_false_iff_ne]
          exact hstatus
        simp [h204, h400]
  · intro w snap today st0 st1 st2 hn helig hcamp hdraft hstatus
    have hn2 : (st0.members.length == 0) = false := by
      rw [beq_eq_false_iff_ne]
      exact hn
    obtain ⟨d, hd⟩ := Option.isSome_iff_exists.mp hdraft
    have hsend : send_campaign st2 = .error (("SystemExit"), st2) := by
      simp [send_campaign, hd, hstatus]
    simp only [automate, hn2, Bool.false_eq_true, if_false, bind, Except.bind, helig,
      hcamp, hsend]

/-- C3 witness: the three amended branches at concrete inputs — a 400
response with a draft aborts, a 204 response returns normally, and the
concrete 400-status run aborts with the post-eligibility state intact. -/
theorem c3_only_400_send_aborts_witness :
    send_campaign stDraft400 = .error (("SystemExit"), stDraft400) ∧
    send_campaign stRun = .ok stRun ∧
    automate wRun snapRun todayRun stRun400 = .error (("SystemExit"), c3st2) :=
  ⟨c3_only_400_send_aborts.1 stDraft400 (by decide) (by decide),
   c3_only_400_send_aborts.2.1 stRun (by decide),
   c3_only_400_send_aborts.2.2 wRun snapRun todayRun stRun400 c3st1 c3st2
     (by decide) (by decide) (by decide) (by decide) (by decide)⟩

/-! ## Infrastructure for reasoning about the pass -/

theorem bind_ok_iff {ε α β : Type} {e : Except ε α} {f : α → Except ε β} {b : β} :
    (e >>= f) = .ok b ↔ ∃ a, e = .ok a ∧ f a = .ok b := by
  cases e <;> simp [Bind.bind, Except.bind]

theorem mapError_ok_iff {ε ε2 α : Type} {e : Except ε α} {f : ε → ε2} {a : α} :
    e.mapError f = .ok a ↔ e = .ok a := by
  cases e <;> simp [Except.mapError]

/-- The contact-id/tag projection used to compare member states whose only
differences are status writes. -/
def mtProj (members : List MemberRec) : List (String × List Tag) :=
  members.map (fun m => (m.contact_id, m.tags))

theorem map_updMember {α : Type} (l : List MemberRec) (cid : String)
    (f : MemberRec → MemberRec) (g : MemberRec → α) (hg : ∀ m, g (f m) = g m) :
    (updMember l cid f).map g = l.map g := by
  induction l with
  | nil => rfl
  | cons x xs ih =>
    simp only [updMember, List.map_cons] at *
    rw [ih]
    congr 1
    split
    · exact hg x
    · rfl

theorem updMember_get? (l : List MemberRec) (cid : String) (f : MemberRec → MemberRec)
    (j : Nat) :
    (updMember l cid f).get? j =
      (l.get? j).map (fun m => if m.contact_id == cid then f m else m) := by
  simp [updMember, List.get?_map]

theorem updMember_get?_ne (l : List MemberRec) (cid : String) (f : MemberRec → MemberRec)
    (j : Nat) (m : MemberRec) (hj : l.get? j = some m) (hne : m.contact_id ≠ cid) :
    (updMember l cid f).get? j = some m := by
  have hb : (m.contact_id == cid) = false := beq_eq_false_iff_ne.mpr hne
  have hc : ¬((m.contact_id == cid) = true) := by simp [hb]
  rw [updMember_get?, hj, Option.map_some', if_neg hc]

theorem mtProj_setStatus (st : St) (cid s : String) :
    mtProj (setStatus st cid s).members = mtProj st.members :=
  map_updMember _ _ _ _ (fun _ => rfl)

theorem map_cid_setStatus (st : St) (cid s : String) :
    (setStatus st cid s).members.map (fun m => m.contact_id) =
      st.members.map (fun m => m.contact_id) :=
  map_updMember _ _ _ _ (fun _ => rfl)

theorem map_cid_add_tag (st : St) (cid t : String) :
    (add_tag st cid t).members.map (fun m => m.contact_id) =
      st.members.map (fun m => m.contact_id) :=
  map_updMember _ _ _ _ (fun _ => rfl)

theorem mtProj_map_cid {l1 l2 : List MemberRec} (h : mtProj l1 = mtProj l2) :
    l1.map (fun m => m.contact_id) = l2.map (fun m => m.contact_id) := by
  have h1 : (mtProj l1).map Prod.fst = (mtProj l2).map Prod.fst := by rw [h]
  simpa [mtProj, List.map_map, Function.comp] using h1

theorem mtProj_get?_cid {l1 l2 : List MemberRec} (h : mtProj l1 = mtProj l2) (i : Nat) :
    (l1.get? i).map (fun m => m.contact_id) = (l2.get? i).map (fun m => m.contact_id) := by
  have h1 := mtProj_map_cid h
  have h2 := congrArg (fun l => l.get? i) h1
  simpa [List.get?_map] using h2

theorem list_tags_congr : ∀ (l1 l2 : List MemberRec), mtProj l1 = mtProj l2 →
    ∀ cid, list_tags l1 cid = list_tags l2 cid
  | [], [], _, _ => rfl
  | [], _ :: _, h, _ => by simp [mtProj] at h
  | _ :: _, [], h, _ => by simp [mtProj] at h
  | x :: xs, y :: ys, h, cid => by
    simp only [mtProj, List.map_cons, List.cons.injEq, Prod.mk.injEq] at h
    obtain ⟨⟨hc, ht⟩, htail⟩ := h
    simp only [list_tags, List.find?, hc]
    cases hp : y.contact_id == cid
    · have hih := list_tags_congr xs ys htail cid
      simpa [list_tags] using hih
    · simp [ht]

theorem get_field_congr {l1 l2 : List MemberRec} (snap : Snapshot) (w : World)
    (cid : String) (h : list_tags l1 cid = list_tags l2 cid) (field : String) :
    get_field l1 snap w cid field = get_field l2 snap w cid field := by
  simp only [get_field, h]

theorem get_field_mt {l1 l2 : List MemberRec} (snap : Snapshot) (w : World)
    (cid : String) (h : mtProj l1 = mtProj l2) (field : String) :
    get_field l1 snap w cid field = get_field l2 snap w cid field :=
  get_field_congr snap w cid (list_tags_congr l1 l2 h cid) field

theorem find?_eq_of_get? : ∀ (l : List MemberRec),
    (l.map (fun m => m.contact_id)).Nodup → ∀ (j : Nat) (m : MemberRec),
    l.get? j = some m → l.find? (fun x => x.contact_id == m.contact_id) = some m
  | [], _, j, m, hj => by cases hj
  | x :: xs, hnd, 0, m, hj => by
    have hx : x = m := by simpa using hj
    subst hx
    simp [List.find?]
  | x :: xs, hnd, Nat.succ j, m, hj => by
    have hj2 : xs.get? j = some m := hj
    have hmem : m ∈ xs := List.get?_mem hj2
    simp only [List.map_cons, List.nodup_cons] at hnd
    have hx : (x.contact_id == m.contact_id) = false := by
      rw [beq_eq_false_iff_ne]
      intro he
      exact hnd.1 (he ▸ List.mem_map_of_mem (fun m => m.contact_id) hmem)
    simp only [List.find?, hx]
    exact find?_eq_of_get? xs hnd.2 j m hj2

/-- Equation for `get_field` on `has_invite_tag`. -/
theorem get_field_has_invite (members : List MemberRec) (snap : Snapshot) (w : World)
    (cid : String) :
    get_field members snap w cid ("has_invite_tag") =
      match list_tags members cid with
      | .error e => .error e
      | .ok tags => .ok (some (FieldValue.bool (tags.any (fun t => t.id == 10201605)))) :=
  rfl

/-- `list_tags` after `find?` resolves through a nodup contact-id list. -/
theorem list_tags_of_get? (l : List MemberRec)
    (hnd : (l.map (fun m => m.contact_id)).Nodup) (j : Nat) (m : MemberRec)
    (hj : l.get? j = some m) : list_tags l m.contact_id = .ok m.tags := by
  simp [list_tags, find?_eq_of_get? l hnd j m hj]

/-- All mutations of one loop iteration are keyed to a single contact id:
the contact-id sequence is unchanged and every member with a different
contact id is untouched. -/
def KeyedUpd (cid : String) (st st2 : St) : Prop :=
  st2.members.map (fun m => m.contact_id) = st.members.map (fun m => m.contact_id) ∧
  ∀ j m, st.members.get? j = some m → m.contact_id ≠ cid → st2.members.get? j = some m

theorem keyedUpd_refl (cid : String) (st : St) : KeyedUpd cid st st :=
  ⟨rfl, fun _ _ h _ => h⟩

theorem keyedUpd_trans {cid : String} {st1 st2 st3 : St}
    (h1 : KeyedUpd cid st1 st2) (h2 : KeyedUpd cid st2 st3) : KeyedUpd cid st1 st3 :=
  ⟨h2.1.trans h1.1, fun j m hj hne => h2.2 j m (h1.2 j m hj hne) hne⟩

theorem keyedUpd_add_tag (st : St) (cid t : String) : KeyedUpd cid st (add_tag st cid t) :=
  ⟨map_cid_add_tag st cid t, fun j m hj hne => updMember_get?_ne _ _ _ j m hj hne⟩

theorem keyedUpd_setStatus (st : St) (cid s : String) :
    KeyedUpd cid st (setStatus st cid s) :=
  ⟨map_cid_setStatus st cid s, fun j m hj hne => updMember_get?_ne _ _ _ j m hj hne⟩

/-- An out-of-range index makes the loop body a no-op. -/
theorem eligStep_none (w : World) (snap : Snapshot) (iso : String) (st : St) (i : Nat)
    (h : (st.members.get? i).map (fun m => m.contact_id) = none) :
    eligStep w snap iso st i = .ok st := by
  unfold eligStep
  rw [h]

/-- A successful resubscribe-refresh only writes the processed member's
status: it is keyed to that contact id and preserves every member's tags. -/
theorem resubRefresh_shape (w : World) (snap : Snapshot) (st : St) (cid : String)
    (sv : Option FieldValue) (st1 : St)
    (hok : resubRefresh w snap st cid sv = .ok st1) :
    KeyedUpd cid st st1 ∧ mtProj st1.members = mtProj st.members := by
  unfold resubRefresh at hok
  by_cases hsub : (sv == some (FieldValue.str ("Subscribed"))) = true
  · rw [if_pos hsub] at hok
    have h : st = st1 := by simpa [pure, Except.pure] using hok
    subst h
    exact ⟨keyedUpd_refl cid st, rfl⟩
  · rw [if_neg hsub] at hok
    rw [bind_ok_iff] at hok
    obtain ⟨e1, _, hok⟩ := hok
    rw [bind_ok_iff] at hok
    obtain ⟨e2, _, hok⟩ := hok
    have hval : subscribe (unsubscribe st cid) cid = st1 := by
      simpa [pure, Except.pure] using hok
    rw [← hval]
    refine ⟨keyedUpd_trans (keyedUpd_setStatus st cid _)
      (keyedUpd_setStatus (unsubscribe st cid) cid _), ?_⟩
    simp [subscribe, unsubscribe, mtProj_setStatus]

/-- A successful eligibility iteration only mutates the member(s) holding
the processed contact id. -/
theorem eligStep_keyed (w : World) (snap : Snapshot) (iso : String) (st : St) (i : Nat)
    (st2 : St) (cid : String)
    (hcid : (st.members.get? i).map (fun m => m.contact_id) = some cid)
    (hok : eligStep w snap iso st i = .ok st2) : KeyedUpd cid st st2 := by
  unfold eligStep at hok
  rw [hcid] at hok
  rw [bind_ok_iff] at hok
  obtain ⟨sv, hsv, hok⟩ := hok
  rw [bind_ok_iff] at hok
  obtain ⟨st1, hst1, hok⟩ := hok
  have h1 : KeyedUpd cid st st1 := (resubRefresh_shape w snap st cid sv st1 hst1).1
  rw [bind_ok_iff] at hok
  obtain ⟨hv, hhv, hok⟩ := hok
  have hpure : ∀ s : St, (pure s : Except (String × St) St) = .ok s := fun _ => rfl
  by_cases hb1 : (!(truthy hv)) = true
  · rw [if_pos hb1] at hok
    rw [bind_ok_iff] at hok
    obtain ⟨a, ha, hok⟩ := hok
    by_cases hb2 : (truthy a) = true
    · rw [if_pos hb2, hpure] at hok
      have hval : add_tag (add_tag st1 cid (("Invited-") ++ iso)) cid ("slmschimp") = st2 := by
        simpa using hok
      rw [← hval]
      exact keyedUpd_trans h1 (keyedUpd_trans (keyedUpd_add_tag st1 cid _)
        (keyedUpd_add_tag (add_tag st1 cid _) cid _))
    · rw [if_neg hb2] at hok
      rw [bind_ok_iff] at hok
      obtain ⟨a2, ha2, hok⟩ := hok
      by_cases hb3 : (!(truthy a2)) = true
      · rw [if_pos hb3] at hok
        rw [bind_ok_iff] at hok
        obtain ⟨e3, _, hok⟩ := hok
        have hval : unsubscribe (add_tag st1 cid ("NoSend")) cid = st2 := by
          simpa [pure, Except.pure] using hok
        rw [← hval]
        exact keyedUpd_trans h1 (keyedUpd_trans (keyedUpd_add_tag st1 cid _)
          (keyedUpd_setStatus (add_tag st1 cid _) cid _))
      · rw [if_neg hb3, hpure] at hok
        have hval : st1 = st2 := by simpa using hok
        exact hval ▸ h1
  · rw [if_neg hb1] at hok
    rw [bind_ok_iff] at hok
    obtain ⟨hv2, hhv2, hok⟩ := hok
    by_cases hb4 : (truthy hv2) = true
    · rw [if_pos hb4, hpure] at hok
      have hval : add_tag (add_tag st1 cid (("Invited-") ++ iso)) cid ("slmschimp") = st2 := by
        simpa using hok
      rw [← hval]
      exact keyedUpd_trans h1 (keyedUpd_trans (keyedUpd_add_tag st1 cid _)
        (keyedUpd_add_tag (add_tag st1 cid _) cid _))
    · rw [if_neg hb4, hpure] at hok
      have hval : st1 = st2 := by simpa using hok
      exact hval ▸ h1

theorem mtProj_get?_ex {l1 l2 : List MemberRec} (h : mtProj l1 = mtProj l2) (j : Nat)
    (m : MemberRec) (hj : l2.get? j = some m) :
    ∃ m1, l1.get? j = some m1 ∧ m1.contact_id = m.contact_id ∧ m1.tags = m.tags := by
  have h1 := congrArg (fun l => l.get? j) h
  simp only [mtProj, List.get?_map, hj] at h1
  cases hg : l1.get? j with
  | none => rw [hg] at h1; simp at h1
  | some m1 =>
    rw [hg] at h1
    simp only [Option.map_some', Option.some.injEq, Prod.mk.injEq] at h1
    exact ⟨m1, rfl, h1.1, h1.2⟩

/-- Members whose contact id differs from every processed index's contact
id pass through the eligibility loop untouched; the contact-id sequence is
invariant. -/
theorem eligLoop_keep (w : World) (snap : Snapshot) (iso : String) (mj : MemberRec)
    (cids0 : List String) (j : Nat) :
    ∀ (L : List Nat) (st st2 : St),
      eligLoop w snap iso st L = .ok st2 →
      st.members.get? j = some mj →
      st.members.map (fun m => m.contact_id) = cids0 →
      (∀ i ∈ L, cids0.get? i ≠ some mj.contact_id) →
      st2.members.get? j = some mj ∧ st2.members.map (fun m => m.contact_id) = cids0
  | [], st, st2, hok, hj, hmap, _ => by
    have h : st = st2 := by simpa [eligLoop] using hok
    subst h
    exact ⟨hj, hmap⟩
  | i :: L, st, st2, hok, hj, hmap, hL => by
    rw [eligLoop, bind_ok_iff] at hok
    obtain ⟨st3, hstep, hloop⟩ := hok
    cases hsc : (st.members.get? i).map (fun m => m.contact_id) with
    | none =>
      have hsame : st3 = st := by
        have := eligStep_none w snap iso st i hsc
        rw [this] at hstep
        exact (Except.ok.injEq _ _).mp hstep.symm
      subst hsame
      exact eligLoop_keep w snap iso mj cids0 j L st3 st2 hloop hj hmap
        (fun x hx => hL x (List.mem_cons_of_mem i hx))
    | some c =>
      have hci : cids0.get? i = some c := by
        rw [← hmap]
        simpa [List.get?_map] using hsc
      have hcne : c ≠ mj.contact_id := by
        intro he
        exact hL i (List.mem_cons_self i L) (by rw [hci, he])
      obtain ⟨hmapk, hkeep⟩ := eligStep_keyed w snap iso st i st3 c hsc hstep
      exact eligLoop_keep w snap iso mj cids0 j L st3 st2 hloop
        (hkeep j mj hj (fun he => hcne he.symm)) (hmapk.trans hmap)
        (fun x hx => hL x (List.mem_cons_of_mem i hx))

theorem eligLoop_append (w : World) (snap : Snapshot) (iso : String) :
    ∀ (L1 L2 : List Nat) (st : St),
      eligLoop w snap iso st (L1 ++ L2) =
        (eligLoop w snap iso st L1) >>= (fun s => eligLoop w snap iso s L2)
  | [], L2, st => rfl
  | i :: L1, L2, st => by
    simp only [List.cons_append, eligLoop]
    cases he : eligStep w snap iso st i
    · simp [Bind.bind, Except.bind]
    · simp only [Bind.bind, Except.bind]
      exact eligLoop_append w snap iso L1 L2 _

/-- Exact effect of the eligibility iteration on a member who neither
carries the invite tag nor resolves 18+: the member ends unsubscribed with
exactly the `NoSend` tag added. -/
theorem eligStep_nonadult (w : World) (snap : Snapshot) (iso : String) (st : St)
    (j : Nat) (m : MemberRec) (vh v8 : Option FieldValue) (st2 : St)
    (hj : st.members.get? j = some m)
    (hhv : get_field st.members snap w m.contact_id ("has_invite_tag") = .ok vh)
    (hht : truthy vh = false)
    (h8 : get_field st.members snap w m.contact_id ("is_18+") = .ok v8)
    (h8t : truthy v8 = false)
    (hok : eligStep w snap iso st j = .ok st2) :
    st2.members.get? j = some ⟨m.contact_id, ("unsubscribed"),
      addTagL m.tags (Tag.mk (tagIdOf ("NoSend")) ("NoSend"))⟩ ∧
    st2.members.map (fun x => x.contact_id) = st.members.map (fun x => x.contact_id) := by
  have hcid : (st.members.get? j).map (fun x => x.contact_id) = some m.contact_id := by
    rw [hj]; rfl
  unfold eligStep at hok
  rw [hcid] at hok
  rw [bind_ok_iff] at hok
  obtain ⟨sv, hsv, hok⟩ := hok
  rw [bind_ok_iff] at hok
  obtain ⟨st1, hst1, hok⟩ := hok
  obtain ⟨hk1, hmt1⟩ := resubRefresh_shape w snap st m.contact_id sv st1 hst1
  obtain ⟨m1, hj1, hcid1, htags1⟩ := mtProj_get?_ex hmt1 j m hj
  rw [bind_ok_iff] at hok
  obtain ⟨hv, hhv2, hok⟩ := hok
  rw [mapError_ok_iff] at hhv2
  rw [get_field_mt snap w m.contact_id hmt1] at hhv2
  have hveq : hv = vh := by
    rw [hhv] at hhv2
    exact ((Except.ok.injEq _ _).mp hhv2).symm
  subst hveq
  have hcond1 : (!(truthy hv)) = true := by rw [hht]; rfl
  rw [if_pos hcond1] at hok
  rw [bind_ok_iff] at hok
  obtain ⟨a, ha, hok⟩ := hok
  rw [mapError_ok_iff] at ha
  rw [get_field_mt snap w m.contact_id hmt1] at ha
  have haeq : a = v8 := by
    rw [h8] at ha
    exact ((Except.ok.injEq _ _).mp ha).symm
  subst haeq
  have hcond2 : ¬(truthy a = true) := by rw [h8t]; simp
  rw [if_neg hcond2] at hok
  rw [bind_ok_iff] at hok
  obtain ⟨a2, ha2, hok⟩ := hok
  rw [mapError_ok_iff] at ha2
  rw [get_field_mt snap w m.contact_id hmt1] at ha2
  have ha2eq : a2 = a := by
    rw [h8] at ha2
    exact ((Except.ok.injEq _ _).mp ha2).symm
  subst ha2eq
  have hcond3 : (!(truthy a2)) = true := by rw [h8t]; rfl
  rw [if_pos hcond3] at hok
  rw [bind_ok_iff] at hok
  obtain ⟨e3, _, hok⟩ := hok
  have hval : unsubscribe (add_tag st1 m.contact_id ("NoSend")) m.contact_id = st2 := by
    simpa [pure, Except.pure] using hok
  subst hval
  constructor
  · have hb1 : (m1.contact_id == m.contact_id) = true := by
      rw [hcid1]; exact beq_self_eq_true _
    have hstep1 : (add_tag st1 m.contact_id ("NoSend")).members.get? j =
        some ⟨m.contact_id, m1.status,
          addTagL m.tags (Tag.mk (tagIdOf ("NoSend")) ("NoSend"))⟩ := by
      simp only [add_tag]
      rw [updMember_get?, hj1, Option.map_some', if_pos hb1]
      rw [← hcid1, ← htags1]
    simp only [unsubscribe, setStatus]
    rw [updMember_get?, hstep1, Option.map_some', if_pos (beq_self_eq_true _)]
  · simp only [unsubscribe]
    rw [map_cid_setStatus, map_cid_add_tag]
    exact hk1.1

theorem campaignPhase_members (w : World) (today : PyDate) (st st2 : St)
    (hok : campaignPhase w today st = .ok st2) : st2.members = st.members := by
  have hscc : ∀ (stx : St) (cidq : Option String) (u : CampaignContent),
      (set_campaign_content stx cidq u).members = stx.members := by
    intro stx cidq u
    cases cidq <;> rfl
  unfold campaignPhase at hok
  cases hd : draft_campaign_id st <;> rw [hd] at hok <;>
    cases hu : update_campaign_content today ({ html := w.lastSentContent }) w.discourseEvent <;>
      rw [hu] at hok <;> simp only [Except.ok.injEq] at hok <;> try exact absurd hok (by simp)
  · rw [← hok, hscc]
    rfl
  · rw [← hok, hscc]
    rfl

theorem send_campaign_ok (st st2 : St) (hok : send_campaign st = .ok st2) : st2 = st := by
  unfold send_campaign at hok
  cases hd : draft_campaign_id st <;> rw [hd] at hok
  · exact ((Except.ok.injEq _ _).mp hok).symm
  · by_cases h204 : (st.sendStatus == 204) = true
    · rw [if_pos h204] at hok
      exact ((Except.ok.injEq _ _).mp hok).symm
    · rw [if_neg h204] at hok
      by_cases h400 : (st.sendStatus == 400) = true
      · rw [if_pos h400] at hok
        cases hok
      · rw [if_neg h400] at hok
        exact ((Except.ok.injEq _ _).mp hok).symm

/-- Decomposition of a successful nonempty run into its four phases. -/
theorem automate_decomp (w : World) (snap : Snapshot) (today : PyDate) (st0 : St)
    (ids : List String) (stF : St)
    (hrun : automate w snap today st0 = .ok (ids, stF))
    (hn : st0.members.length ≠ 0) :
    ∃ st1 st2 st3,
      eligLoop w snap (isoDate today) st0 (List.range st0.members.length) = .ok st1 ∧
      campaignPhase w today st1 = .ok st2 ∧
      send_campaign st2 = .ok st3 ∧
      archiveLoop w snap (List.range st0.members.length).reverse st3 [] = .ok (ids, stF) := by
  have hn2 : (st0.members.length == 0) = false := by
    rw [beq_eq_false_iff_ne]
    exact hn
  unfold automate at hrun
  simp only [hn2, Bool.false_eq_true, if_false] at hrun
  rw [bind_ok_iff] at hrun
  obtain ⟨st1, h1, hrun⟩ := hrun
  rw [bind_ok_iff] at hrun
  obtain ⟨st2, h2, hrun⟩ := hrun
  rw [bind_ok_iff] at hrun
  obtain ⟨st3, h3, hrun⟩ := hrun
  exact ⟨st1, st2, st3, h1, h2, h3, hrun⟩

/-! ## The archive pass as a function of the pre-pass member state -/

/-- What the archiving iteration observes and decides at index `i`, as a
function of a fixed member list: the collected contact id (if archived),
`none` (skipped), or the raised exception.  The pass itself only writes
statuses, so these observations are invariant while it runs. -/
def archiveObs (R : List MemberRec) (snap : Snapshot) (w : World) (i : Nat) :
    Except String (Option String) :=
  match (R.get? i).map (fun m => m.contact_id) with
  | none => .ok none
  | some cid =>
    match get_field R snap w cid ("has_invite_tag") with
    | .error e => .error e
    | .ok hv =>
      if truthy hv then .ok (some cid)
      else
        match get_field R snap w cid ("is_18+") with
        | .error e => .error e
        | .ok a =>
          if !(truthy a) then
            match get_field R snap w cid ("email") with
            | .error e => .error e
            | .ok _ => .ok none
          else .ok none

/-- The contact ids the archive pass collects over an index list. -/
def archCollect (R : List MemberRec) (snap : Snapshot) (w : World) (L : List Nat) :
    List String :=
  L.filterMap (fun i =>
    match archiveObs R snap w i with
    | .ok (some c) => some c
    | _ => none)

/-- The members currently holding the invite tag (id 10201605), as a set of
contact ids. -/
def inviteHolders (members : List MemberRec) : Finset String :=
  ((members.filter (fun m => m.tags.any (fun t => t.id == 10201605))).map
    (fun m => m.contact_id)).toFinset

theorem archCollect_mem (R : List MemberRec) (snap : Snapshot) (w : World)
    (L : List Nat) (x : String) :
    x ∈ archCollect R snap w L ↔ ∃ i ∈ L, archiveObs R snap w i = .ok (some x) := by
  simp only [archCollect, List.mem_filterMap]
  constructor
  · rintro ⟨i, hi, hf⟩
    refine ⟨i, hi, ?_⟩
    cases ho : archiveObs R snap w i with
    | error e => rw [ho] at hf; simp at hf
    | ok r0 =>
      rw [ho] at hf
      cases r0 with
      | none => simp at hf
      | some c => simp at hf; rw [hf]
  · rintro ⟨i, hi, ho⟩
    exact ⟨i, hi, by rw [ho]⟩

theorem inviteHolders_mem (members : List MemberRec) (x : String) :
    x ∈ inviteHolders members ↔
      ∃ m ∈ members, m.tags.any (fun t => t.id == 10201605) = true ∧ m.contact_id = x := by
  simp only [inviteHolders, List.mem_toFinset, List.mem_map, List.mem_filter]
  tauto

theorem mtProj_archive (st : St) (cid : String) :
    mtProj (archive st cid).members = mtProj st.members :=
  mtProj_setStatus st cid _

/-- With stable contact ids and tags, the archiving iteration acts exactly
as its observation dictates. -/
theorem archiveStep_char (w : World) (snap : Snapshot) (st : St) (R : List MemberRec)
    (i : Nat) (acc : List String) (hmt : mtProj st.members = mtProj R) :
    archiveStep w snap st i acc =
      match archiveObs R snap w i with
      | .error e => .error (e, st)
      | .ok none => .ok (acc, st)
      | .ok (some c) => .ok (acc ++ [c], archive st c) := by
  unfold archiveStep archiveObs
  rw [mtProj_get?_cid hmt i]
  cases hc : (R.get? i).map (fun m => m.contact_id) with
  | none => rfl
  | some cid =>
    simp only []
    rw [get_field_mt snap w cid hmt ("has_invite_tag"),
      get_field_mt snap w cid hmt ("is_18+"), get_field_mt snap w cid hmt ("email")]
    cases hv : get_field R snap w cid ("has_invite_tag") with
    | error e => simp [Bind.bind, Except.bind, Except.mapError]
    | ok hvv =>
      cases hb : truthy hvv
      · cases ha : get_field R snap w cid ("is_18+") with
        | error e2 => simp [Bind.bind, Except.bind, Except.mapError, hb]
        | ok av =>
          cases hba : truthy av
          · cases he : get_field R snap w cid ("email") with
            | error e3 => simp [Bind.bind, Except.bind, Except.mapError, hb, hba]
            | ok ev => simp [Bind.bind, Except.bind, Except.mapError, hb, hba]
          · simp [Bind.bind, Except.bind, Except.mapError, hb, hba]
      · simp [Bind.bind, Except.bind, Except.mapError, hb]

/-- A successful archive pass returns exactly the collected observations,
preserves contact ids and tags, and certifies every observation succeeded. -/
theorem archiveLoop_char (w : World) (snap : Snapshot) (R : List MemberRec) :
    ∀ (L : List Nat) (st : St) (acc ids : List String) (st2 : St),
      mtProj st.members = mtProj R →
      archiveLoop w snap L st acc = .ok (ids, st2) →
      ids = acc ++ archCollect R snap w L ∧ mtProj st2.members = mtProj R ∧
        ∀ i ∈ L, ∃ r, archiveObs R snap w i = .ok r
  | [], st, acc, ids, st2, hmt, hok => by
    have h : (Except.ok (acc, st) : Except (String × St) (List String × St)) =
        .ok (ids, st2) := by simpa [archiveLoop] using hok
    have h2 := (Except.ok.injEq _ _).mp h
    have ha : acc = ids := congrArg Prod.fst h2
    have hb : st = st2 := congrArg Prod.snd h2
    refine ⟨?_, ?_, ?_⟩
    · rw [← ha]
      simp [archCollect]
    · rw [← hb]
      exact hmt
    · intro i hi
      simp at hi
  | i :: L, st, acc, ids, st2, hmt, hok => by
    rw [archiveLoop, bind_ok_iff] at hok
    obtain ⟨r1, hstep, hloop⟩ := hok
    rw [archiveStep_char w snap st R i acc hmt] at hstep
    cases ho : archiveObs R snap w i with
    | error e =>
      rw [ho] at hstep
      cases hstep
    | ok r0 =>
      rw [ho] at hstep
      cases r0 with
      | none =>
        have hr1 : (acc, st) = r1 := (Except.ok.injEq _ _).mp hstep
        rw [← hr1] at hloop
        obtain ⟨hids, hmt2, hall⟩ :=
          archiveLoop_char w snap R L st acc ids st2 hmt hloop
        refine ⟨?_, hmt2, ?_⟩
        · rw [hids]
          simp [archCollect, ho]
        · intro x hx
          rcases List.mem_cons.mp hx with hx | hx
          · exact ⟨none, hx ▸ ho⟩
          · exact hall x hx
      | some c =>
        have hr1 : (acc ++ [c], archive st c) = r1 := (Except.ok.injEq _ _).mp hstep
        rw [← hr1] at hloop
        have hmt3 : mtProj (archive st c).members = mtProj R :=
          (mtProj_archive st c).trans hmt
        obtain ⟨hids, hmt2, hall⟩ :=
          archiveLoop_char w snap R L (archive st c) (acc ++ [c]) ids st2 hmt3 hloop
        refine ⟨?_, hmt2, ?_⟩
        · rw [hids]
          simp [archCollect, ho]
        · intro x hx
          rcases List.mem_cons.mp hx with hx | hx
          · exact ⟨some c, hx ▸ ho⟩
          · exact hall x hx

/-- Conversely, when every observation over the index list succeeds, the
archive pass succeeds and returns exactly the collected observations. -/
theorem archiveLoop_total (w : World) (snap : Snapshot) (R : List MemberRec) :
    ∀ (L : List Nat) (st : St) (acc : List String),
      mtProj st.members = mtProj R →
      (∀ i ∈ L, ∃ r, archiveObs R snap w i = .ok r) →
      ∃ st2, archiveLoop w snap L st acc = .ok (acc ++ archCollect R snap w L, st2) ∧
        mtProj st2.members = mtProj R
  | [], st, acc, hmt, _ => by
    refine ⟨st, ?_, hmt⟩
    simp [archiveLoop, archCollect]
  | i :: L, st, acc, hmt, hall => by
    obtain ⟨r, hr⟩ := hall i (List.mem_cons_self i L)
    have hstep := archiveStep_char w snap st R i acc hmt
    rw [hr] at hstep
    cases r with
    | none =>
      obtain ⟨st2, hloop, hmt2⟩ := archiveLoop_total w snap R L st acc hmt
        (fun x hx => hall x (List.mem_cons_of_mem i hx))
      refine ⟨st2, ?_, hmt2⟩
      rw [archiveLoop, bind_ok_iff]
      refine ⟨(acc, st), hstep, ?_⟩
      rw [hloop]
      simp [archCollect, hr]
    | some c =>
      have hmt3 : mtProj (archive st c).members = mtProj R :=
        (mtProj_archive st c).trans hmt
      obtain ⟨st2, hloop, hmt2⟩ := archiveLoop_total w snap R L (archive st c) (acc ++ [c])
        hmt3 (fun x hx => hall x (List.mem_cons_of_mem i hx))
      refine ⟨st2, ?_, hmt2⟩
      rw [archiveLoop, bind_ok_iff]
      refine ⟨(acc ++ [c], archive st c), hstep, ?_⟩
      rw [hloop]
      simp [archCollect, hr]

/-- A member holding the invite tag is observed as archived. -/
theorem archiveObs_invite (R : List MemberRec) (snap : Snapshot) (w : World)
    (hnd : (R.map (fun m => m.contact_id)).Nodup) (i : Nat) (m : MemberRec)
    (hm : R.get? i = some m)
    (htag : m.tags.any (fun t => t.id == 10201605) = true) :
    archiveObs R snap w i = .ok (some m.contact_id) := by
  unfold archiveObs
  rw [hm]
  simp only [Option.map_some']
  rw [get_field_has_invite, list_tags_of_get? R hnd i m hm]
  simp [truthy, htag]

/-- Conversely, an archived observation comes from a member holding the
invite tag at that index. -/
theorem archiveObs_some_inv (R : List MemberRec) (snap : Snapshot) (w : World)
    (hnd : (R.map (fun m => m.contact_id)).Nodup) (i : Nat) (c : String)
    (h : archiveObs R snap w i = .ok (some c)) :
    ∃ m, R.get? i = some m ∧ m.contact_id = c ∧
      m.tags.any (fun t => t.id == 10201605) = true := by
  unfold archiveObs at h
  cases hm : R.get? i with
  | none => rw [hm] at h; simp at h
  | some m =>
    rw [hm] at h
    simp only [Option.map_some'] at h
    rw [get_field_has_invite, list_tags_of_get? R hnd i m hm] at h
    simp only [] at h
    by_cases hX : m.tags.any (fun t => t.id == 10201605) = true
    · refine ⟨m, rfl, ?_, hX⟩
      simp only [truthy, hX, if_true] at h
      have h2 := (Except.ok.injEq _ _).mp h
      exact (Option.some.injEq _ _).mp h2
    · exfalso
      have hX2 : truthy (some (FieldValue.bool (m.tags.any (fun t => t.id == 10201605)))) = false := by
        simp only [truthy]
        exact Bool.eq_false_iff.mpr hX
      rw [if_neg (by rw [hX2]; simp)] at h
      cases ha : get_field R snap w m.contact_id ("is_18+") with
      | error e => rw [ha] at h; cases h
      | ok av =>
        rw [ha] at h
        simp only [] at h
        by_cases hba : (!(truthy av)) = true
        · rw [if_pos hba] at h
          cases he : get_field R snap w m.contact_id ("email") with
          | error e => rw [he] at h; cases h
          | ok ev => rw [he] at h; cases ((Except.ok.injEq _ _).mp h)
        · rw [if_neg hba] at h
          cases ((Except.ok.injEq _ _).mp h)

/-- A member without the invite tag passes through the archive loop
untouched, whatever the iteration order. -/
theorem archiveLoop_keep (w : World) (snap : Snapshot) (mj : MemberRec)
    (cids0 : List String) (j : Nat) (hnd0 : cids0.Nodup)
    (htag : mj.tags.any (fun t => t.id == 10201605) = false) :
    ∀ (L : List Nat) (st : St) (acc ids : List String) (st2 : St),
      archiveLoop w snap L st acc = .ok (ids, st2) →
      st.members.get? j = some mj →
      st.members.map (fun x => x.contact_id) = cids0 →
      st2.members.get? j = some mj ∧ st2.members.map (fun x => x.contact_id) = cids0
  | [], st, acc, ids, st2, hok, hj, hmap => by
    have h : (Except.ok (acc, st) : Except (String × St) (List String × St)) =
        .ok (ids, st2) := by simpa [archiveLoop] using hok
    have h2 := (Except.ok.injEq _ _).mp h
    have hb : st = st2 := congrArg Prod.snd h2
    exact hb ▸ ⟨hj, hmap⟩
  | i :: L, st, acc, ids, st2, hok, hj, hmap => by
    rw [archiveLoop, bind_ok_iff] at hok
    obtain ⟨r1, hstep, hloop⟩ := hok
    rw [archiveStep_char w snap st st.members i acc rfl] at hstep
    cases ho : archiveObs st.members snap w i with
    | error e => rw [ho] at hstep; cases hstep
    | ok r0 =>
      rw [ho] at hstep
      cases r0 with
      | none =>
        have hr1 : (acc, st) = r1 := (Except.ok.injEq _ _).mp hstep
        rw [← hr1] at hloop
        exact archiveLoop_keep w snap mj cids0 j hnd0 htag L st acc ids st2 hloop hj hmap
      | some c =>
        have hr1 : (acc ++ [c], archive st c) = r1 := (Except.ok.injEq _ _).mp hstep
        rw [← hr1] at hloop
        have hcne : c ≠ mj.contact_id := by
          intro he
          obtain ⟨m2, hm2, hc2, ht2⟩ :=
            archiveObs_some_inv st.members snap w (hmap ▸ hnd0) i c ho
          have hfind1 : st.members.find? (fun x => x.contact_id == mj.contact_id) =
              some mj := find?_eq_of_get? st.members (hmap ▸ hnd0) j mj hj
          have hfind2 : st.members.find? (fun x => x.contact_id == mj.contact_id) =
              some m2 := by
            have := find?_eq_of_get? st.members (hmap ▸ hnd0) i m2 hm2
            rw [hc2, he] at this
            exact this
          have hm : mj = m2 := by
            rw [hfind1] at hfind2
            exact (Option.some.injEq _ _).mp hfind2
          rw [← hm] at ht2
          rw [htag] at ht2
          cases ht2
        have hj2 : (archive st c).members.get? j = some mj := by
          simp only [archive, setStatus]
          exact updMember_get?_ne _ _ _ j mj hj (fun he => hcne he.symm)
        have hmap2 : (archive st c).members.map (fun x => x.contact_id) = cids0 := by
          simp only [archive]
          rw [map_cid_setStatus]
          exact hmap
        exact archiveLoop_keep w snap mj cids0 j hnd0 htag L (archive st c) (acc ++ [c])
          ids st2 hloop hj2 hmap2

/-- The eligibility loop never changes the contact-id sequence. -/
theorem eligLoop_map_cid (w : World) (snap : Snapshot) (iso : String) :
    ∀ (L : List Nat) (st st2 : St), eligLoop w snap iso st L = .ok st2 →
      st2.members.map (fun m => m.contact_id) = st.members.map (fun m => m.contact_id)
  | [], st, st2, hok => by
    have h : st = st2 := by simpa [eligLoop] using hok
    rw [h]
  | i :: L, st, st2, hok => by
    rw [eligLoop, bind_ok_iff] at hok
    obtain ⟨st3, hstep, hloop⟩ := hok
    cases hsc : (st.members.get? i).map (fun m => m.contact_id) with
    | none =>
      have hsame : st3 = st := by
        have := eligStep_none w snap iso st i hsc
        rw [this] at hstep
        exact (Except.ok.injEq _ _).mp hstep.symm
      subst hsame
      exact eligLoop_map_cid w snap iso L st3 st2 hloop
    | some c =>
      have hk := eligStep_keyed w snap iso st i st3 c hsc hstep
      exact (eligLoop_map_cid w snap iso L st3 st2 hloop).trans hk.1

/-! ## C9: the archive pass collects exactly the invite holders -/

/-- C9: in every successful run, the set of identifiers archived and
returned by the second pass equals the set of members holding the invite
tag at the end of the eligibility pass (contact ids assumed unique, as they
are in MailChimp); and for the second pass from any state, reverse and
forward index order collect the same set. -/
theorem c9_archive_set_eq_invite_holders :
    (∀ (w : World) (snap : Snapshot) (today : PyDate) (st0 : St)
        (ids : List String) (stF st1 : St),
        automate w snap today st0 = .ok (ids, stF) →
        eligLoop w snap (isoDate today) st0 (List.range st0.members.length) = .ok st1 →
        (st0.members.map (fun m => m.contact_id)).Nodup →
        ids.toFinset = inviteHolders st1.members) ∧
    (∀ (w : World) (snap : Snapshot) (st : St) (ids1 : List String) (st1 : St),
        archiveLoop w snap ((List.range st.members.length).reverse) st [] = .ok (ids1, st1) →
        ∃ ids2 st2,
          archiveLoop w snap (List.range st.members.length) st [] = .ok (ids2, st2) ∧
          ids1.toFinset = ids2.toFinset) := by
  constructor
  · intro w snap today st0 ids stF st1 hrun helig hnd
    by_cases hn : st0.members.length = 0
    · have hmem : st0.members = [] := List.length_eq_zero.mp hn
      have hrun0 : automate w snap today st0 = .ok ([], st0) := by
        unfold automate
        simp [hn]
      rw [hrun0] at hrun
      have hids : ([] : List String) = ids :=
        congrArg Prod.fst ((Except.ok.injEq _ _).mp hrun)
      have h1 : st1 = st0 := by
        rw [hn] at helig
        simpa [eligLoop, List.range_zero, Eq.comm] using helig
      rw [← hids, h1, hmem]
      simp [inviteHolders]
    · obtain ⟨st1', st2, st3, h1, h2, h3, h4⟩ :=
        automate_decomp w snap today st0 ids stF hrun hn
      rw [helig] at h1
      have hst1 : st1 = st1' := (Except.ok.injEq _ _).mp h1
      subst hst1
      have hmem2 : st2.members = st1.members := campaignPhase_members w today st1 st2 h2
      have hst3 : st3 = st2 := send_campaign_ok st2 st3 h3
      have hmt : mtProj st3.members = mtProj st1.members := by rw [hst3, hmem2]
      obtain ⟨hids, _, _⟩ := archiveLoop_char w snap st1.members _ st3 [] ids stF hmt h4
      have hmap1 : st1.members.map (fun m => m.contact_id) =
          st0.members.map (fun m => m.contact_id) :=
        eligLoop_map_cid w snap (isoDate today) _ st0 st1 helig
      have hndR : (st1.members.map (fun m => m.contact_id)).Nodup := by
        rw [hmap1]; exact hnd
      have hlen : st1.members.length = st0.members.length := by
        have := congrArg List.length hmap1
        simpa using this
      apply Finset.ext
      intro x
      rw [hids]
      simp only [List.nil_append]
      rw [List.mem_toFinset, archCollect_mem, inviteHolders_mem]
      constructor
      · rintro ⟨i, _, ho⟩
        obtain ⟨m, hm, hcid, htag⟩ := archiveObs_some_inv st1.members snap w hndR i x ho
        exact ⟨m, List.get?_mem hm, htag, hcid⟩
      · rintro ⟨m, hmem, htag, hcid⟩
        obtain ⟨i, hi⟩ := List.mem_iff_get?.mp hmem
        have hilt : i < st1.members.length := by
          by_contra hge
          rw [List.get?_eq_none.mpr (Nat.le_of_not_lt hge)] at hi
          cases hi
        refine ⟨i, ?_, ?_⟩
        · rw [List.mem_reverse, List.mem_range]
          rw [← hlen]
          exact hilt
        · rw [← hcid]
          exact archiveObs_invite st1.members snap w hndR i m hi htag
  · intro w snap st ids1 st1 hrev
    obtain ⟨hids, _, hall⟩ :=
      archiveLoop_char w snap st.members _ st [] ids1 st1 rfl hrev
    have hall2 : ∀ i ∈ List.range st.members.length,
        ∃ r, archiveObs st.members snap w i = .ok r :=
      fun i hi => hall i (List.mem_reverse.mpr hi)
    obtain ⟨st2, hfwd, _⟩ :=
      archiveLoop_total w snap st.members (List.range st.members.length) st [] rfl hall2
    refine ⟨_, st2, hfwd, ?_⟩
    rw [hids]
    simp only [List.nil_append]
    apply Finset.ext
    intro x
    rw [List.mem_toFinset, List.mem_toFinset, archCollect_mem, archCollect_mem]
    constructor
    · rintro ⟨i, hi, ho⟩
      exact ⟨i, List.mem_reverse.mp hi, ho⟩
    · rintro ⟨i, hi, ho⟩
      exact ⟨i, List.mem_reverse.mpr hi, ho⟩

/-- Result components of the three-member run. -/
def c9run : Except (String × St) (List String × St) := automate wRun snapRun todayRun stRun

def c9ids : List String :=
  match c9run with
  | .ok r => r.1
  | .error _ => []

def c9stF : St :=
  match c9run with
  | .ok r => r.2
  | .error e => e.2

/-- State after the eligibility loop of the three-member run. -/
def c9st1 : St :=
  match eligLoop wRun snapRun (isoDate todayRun) stRun (List.range stRun.members.length) with
  | .ok s => s
  | .error e => e.2

/-- Pre-archive state of the three-member run (after the draft section; the
204 send returns the state unchanged). -/
def c9stPre : St :=
  match campaignPhase wRun todayRun c9st1 with
  | .ok s => s
  | .error e => e.2

def c9archRev : Except (String × St) (List String × St) :=
  archiveLoop wRun snapRun ((List.range c9stPre.members.length).reverse) c9stPre []

def c9idsRev : List String :=
  match c9archRev with
  | .ok r => r.1
  | .error _ => []

def c9stRev : St :=
  match c9archRev with
  | .ok r => r.2
  | .error e => e.2

/-- C9 witness: the concrete three-member run (members a and c invite-tagged
after the pass, member b excluded) — the returned set equals the invite
holders, and the forward-order pass collects the same set. -/
theorem c9_archive_set_eq_invite_holders_witness :
    automate wRun snapRun todayRun stRun = .ok (c9ids, c9stF) ∧
    eligLoop wRun snapRun (isoDate todayRun) stRun (List.range stRun.members.length) =
      .ok c9st1 ∧
    (stRun.members.map (fun m => m.contact_id)).Nodup ∧
    c9ids.toFinset = inviteHolders c9st1.members ∧
    archiveLoop wRun snapRun ((List.range c9stPre.members.length).reverse) c9stPre [] =
      .ok (c9idsRev, c9stRev) ∧
    (∃ ids2 st2,
      archiveLoop wRun snapRun (List.range c9stPre.members.length) c9stPre [] =
        .ok (ids2, st2) ∧
      c9idsRev.toFinset = ids2.toFinset) :=
  ⟨by decide, by decide, by decide,
   c9_archive_set_eq_invite_holders.1 wRun snapRun todayRun stRun c9ids c9stF c9st1
     (by decide) (by decide) (by decide),
   by decide,
   c9_archive_set_eq_invite_holders.2 wRun snapRun c9stPre c9idsRev c9stRev (by decide)⟩

theorem addTagL_self_mem (tags : List Tag) (t : Tag) : t ∈ addTagL tags t := by
  unfold addTagL
  split
  · assumption
  · simp

theorem addTagL_subset (tags : List Tag) (t : Tag) :
    ∀ x ∈ addTagL tags t, x ∈ tags ∨ x = t := by
  intro x hx
  unfold addTagL at hx
  split at hx
  · exact Or.inl hx
  · rcases List.mem_append.mp hx with h | h
    · exact Or.inl h
    · exact Or.inr (List.mem_singleton.mp h)

theorem addTagL_any_false (tags : List Tag) (t : Tag) (p : Tag → Bool)
    (h1 : tags.any p = false) (h2 : p t = false) : (addTagL tags t).any p = false := by
  unfold addTagL
  split
  · exact h1
  · simp [List.any_append, h1, h2]

/-! ## C1: a non-adult member never acquires the invite markers -/

/-- C1: in every successful run with unique contact ids, a member who does
not already carry the invite tag and whose `is_18+` resolves falsy ends the
pass unsubscribed with the `NoSend` tag added and nothing else: no
`Invited-<date>` stamp, no `slmschimp` marker (the invite-tag check on the
final tags is still false). -/
theorem c1_nonadult_never_invited (w : World) (snap : Snapshot) (today : PyDate)
    (st0 : St) (ids : List String) (stF : St) (j : Nat) (m : MemberRec)
    (vh v8 : Option FieldValue)
    (hrun : automate w snap today st0 = .ok (ids, stF))
    (hj : st0.members.get? j = some m)
    (hnd : (st0.members.map (fun x => x.contact_id)).Nodup)
    (hhv : get_field st0.members snap w m.contact_id ("has_invite_tag") = .ok vh)
    (hht : truthy vh = false)
    (h8 : get_field st0.members snap w m.contact_id ("is_18+") = .ok v8)
    (h8t : truthy v8 = false) :
    ∃ m2, stF.members.get? j = some m2 ∧
      m2.contact_id = m.contact_id ∧
      m2.status = ("unsubscribed") ∧
      Tag.mk (tagIdOf ("NoSend")) ("NoSend") ∈ m2.tags ∧
      (∀ t ∈ m2.tags, t ∈ m.tags ∨ t = Tag.mk (tagIdOf ("NoSend")) ("NoSend")) ∧
      m2.tags.any (fun t => t.id == 10201605) = false := by
  set noSend : Tag := Tag.mk (tagIdOf ("NoSend")) ("NoSend")
  set mNS : MemberRec := ⟨m.contact_id, ("unsubscribed"), addTagL m.tags noSend⟩
  set cids0 : List String := st0.members.map (fun x => x.contact_id) with hcids0
  -- the member exists, so the run is nonempty
  have hjlt : j < st0.members.length := by
    by_contra hge
    rw [List.get?_eq_none.mpr (Nat.le_of_not_lt hge)] at hj
    cases hj
  have hn : st0.members.length ≠ 0 := Nat.pos_iff_ne_zero.mp (Nat.lt_of_le_of_lt (Nat.zero_le j) hjlt)
  -- the invite-tag hypothesis in terms of the member's tags
  have hlt0 : list_tags st0.members m.contact_id = .ok m.tags :=
    list_tags_of_get? st0.members hnd j m hj
  have hhv0 : get_field st0.members snap w m.contact_id ("has_invite_tag") =
      .ok (some (FieldValue.bool (m.tags.any (fun t => t.id == 10201605)))) := by
    rw [get_field_has_invite, hlt0]
  have hvval : vh = some (FieldValue.bool (m.tags.any (fun t => t.id == 10201605))) := by
    rw [hhv0] at hhv
    exact ((Except.ok.injEq _ _).mp hhv).symm
  have htagm : m.tags.any (fun t => t.id == 10201605) = false := by
    rw [hvval] at hht
    simpa [truthy] using hht
  have hnoSendId : (noSend.id == 10201605) = false := by decide
  have htagNS : mNS.tags.any (fun t => t.id == 10201605) = false :=
    addTagL_any_false m.tags noSend _ htagm hnoSendId
  -- decompose the run
  obtain ⟨st1, st2, st3, helig, hcamp, hsend, harch⟩ :=
    automate_decomp w snap today st0 ids stF hrun hn
  -- split the eligibility index list around j
  have hcj : cids0.get? j = some m.contact_id := by
    rw [hcids0, List.get?_map, hj]
    rfl
  have hinj : ∀ i, cids0.get? i = some m.contact_id → i = j := by
    intro i hi
    have hilt : i < cids0.length := by
      by_contra hge
      rw [List.get?_eq_none.mpr (Nat.le_of_not_lt hge)] at hi
      cases hi
    exact List.get?_inj hilt hnd (hi.trans hcj.symm)
  have hsplit : List.range st0.members.length =
      (List.range j ++ [j]) ++
        (List.range (st0.members.length - (j + 1))).map (fun x => (j + 1) + x) := by
    rw [← List.range_succ]
    rw [← List.range_add]
    congr 1
    omega
  rw [hsplit, eligLoop_append, bind_ok_iff] at helig
  obtain ⟨stAB, hAB, hB⟩ := helig
  rw [eligLoop_append, bind_ok_iff] at hAB
  obtain ⟨stA, hA, hJ⟩ := hAB
  rw [eligLoop, bind_ok_iff] at hJ
  obtain ⟨stB, hstep, htail⟩ := hJ
  have hBAB : stB = stAB := by simpa [eligLoop] using htail
  subst hBAB
  -- phase A leaves the member untouched
  obtain ⟨hjA, hmapA⟩ := eligLoop_keep w snap (isoDate today) m cids0 j
    (List.range j) st0 stA hA hj rfl
    (by
      intro i hi hcontra
      have := hinj i hcontra
      rw [this] at hi
      exact absurd (List.mem_range.mp hi) (Nat.lt_irrefl j))
  -- the member's resolutions are unchanged at the start of its iteration
  have hndA : (stA.members.map (fun x => x.contact_id)).Nodup := by
    rw [hmapA]; exact hnd
  have hltA : list_tags stA.members m.contact_id = .ok m.tags :=
    list_tags_of_get? stA.members hndA j m hjA
  have hgfA : ∀ f, get_field stA.members snap w m.contact_id f =
      get_field st0.members snap w m.contact_id f :=
    fun f => get_field_congr snap w m.contact_id (hltA.trans hlt0.symm) f
  -- the iteration at j
  obtain ⟨hjB, hmapB⟩ := eligStep_nonadult w snap (isoDate today) stA j m vh v8 stB hjA
    ((hgfA _).trans hhv) hht ((hgfA _).trans h8) h8t hstep
  -- phase B leaves the updated member untouched
  obtain ⟨hjB2, hmapB2⟩ := eligLoop_keep w snap (isoDate today) mNS cids0 j
    ((List.range (st0.members.length - (j + 1))).map (fun x => (j + 1) + x)) stB st1 hB
    hjB (hmapB.trans hmapA)
    (by
      intro i hi hcontra
      have hij := hinj i hcontra
      obtain ⟨x, _, hx⟩ := List.mem_map.mp hi
      omega)
  -- the draft section and the send do not touch members
  have hmem2 : st2.members = st1.members := campaignPhase_members w today st1 st2 hcamp
  have hst3 : st3 = st2 := send_campaign_ok st2 st3 hsend
  have hj3 : st3.members.get? j = some mNS := by rw [hst3, hmem2]; exact hjB2
  have hmap3 : st3.members.map (fun x => x.contact_id) = cids0 := by
    rw [hst3, hmem2]; exact hmapB2
  -- the archive pass leaves the member untouched
  have hnd0 : cids0.Nodup := hnd
  obtain ⟨hjF, _⟩ := archiveLoop_keep w snap mNS cids0 j hnd0 htagNS
    ((List.range st0.members.length).reverse) st3 [] ids stF harch hj3 hmap3
  refine ⟨mNS, hjF, rfl, rfl, addTagL_self_mem m.tags noSend, addTagL_subset m.tags noSend,
    htagNS⟩

/-- C1 witness: the three-member run — member b (no invite tag, not 18+)
ends unsubscribed with exactly the `NoSend` tag added and no invite marker. -/
theorem c1_nonadult_never_invited_witness :
    automate wRun snapRun todayRun stRun = .ok (c9ids, c9stF) ∧
    stRun.members.get? 1 = some memB ∧
    (stRun.members.map (fun x => x.contact_id)).Nodup ∧
    get_field stRun.members snapRun wRun memB.contact_id ("has_invite_tag") =
      .ok (some (FieldValue.bool false)) ∧
    truthy (some (FieldValue.bool false)) = false ∧
    get_field stRun.members snapRun wRun memB.contact_id ("is_18+") =
      .ok (some (FieldValue.bool false)) ∧
    (∃ m2, c9stF.members.get? 1 = some m2 ∧
      m2.contact_id = memB.contact_id ∧
      m2.status = ("unsubscribed") ∧
      Tag.mk (tagIdOf ("NoSend")) ("NoSend") ∈ m2.tags ∧
      (∀ t ∈ m2.tags, t ∈ memB.tags ∨ t = Tag.mk (tagIdOf ("NoSend")) ("NoSend")) ∧
      m2.tags.any (fun t => t.id == 10201605) = false) :=
  ⟨by decide, by decide, by decide, by decide, by decide, by decide,
   c1_nonadult_never_invited wRun snapRun todayRun stRun c9ids c9stF 1 memB
     (some (FieldValue.bool false)) (some (FieldValue.bool false))
     (by decide) (by decide) (by decide) (by decide) (by decide) (by decide) (by decide)⟩

end SLMSChimp
